import Mathlib

/-!
Verification development for the ClawTalkGateway Slack-ingress and
Talk-routing engine.  The definitions below are a shallow embedding of the
TypeScript sources (`slack-ingress.ts`, `routing-headers.ts`,
`tool-affinity.ts`, `talk-store.ts`, `slack-routing-sync.ts`).  JavaScript
strings are modelled by Lean `String` restricted to ASCII content (the ids,
scopes and header names the gateway handles are ASCII); `Date.now()` and
`randomUUID()` are passed in as explicit parameters; `Math.random()` is an
explicit rational roll; the file system is modelled as a trace of operations.
-/

namespace ClawTalk

/-! ## JavaScript string primitives (ASCII model) -/

/-- JS whitespace test used by `String.prototype.trim` (ASCII subset). -/
def isJsWs (c : Char) : Bool :=
  c = ' ' || c = '\t' || c = '\n' || c = '\r' || c.toNat = 11 || c.toNat = 12

/-- ASCII lower-casing of a single character (`String.prototype.toLowerCase`). -/
def asciiLower (c : Char) : Char :=
  if 'A' ≤ c && c ≤ 'Z' then Char.ofNat (c.toNat + 32) else c

/-- ASCII upper-casing of a single character (`String.prototype.toUpperCase`). -/
def asciiUpper (c : Char) : Char :=
  if 'a' ≤ c && c ≤ 'z' then Char.ofNat (c.toNat - 32) else c

def trimChars (l : List Char) : List Char :=
  ((l.dropWhile isJsWs).reverse.dropWhile isJsWs).reverse

/-- `s.trim()` -/
def jsTrim (s : String) : String := ⟨trimChars s.data⟩

/-- `s.toLowerCase()` -/
def jsLower (s : String) : String := ⟨s.data.map asciiLower⟩

/-- `s.toUpperCase()` -/
def jsUpper (s : String) : String := ⟨s.data.map asciiUpper⟩

/-- `s.startsWith(p)` -/
def jsStartsWith (s p : String) : Bool := p.data.isPrefixOf s.data

/-- `s.endsWith(p)` -/
def jsEndsWith (s p : String) : Bool := p.data.isSuffixOf s.data

/-- `s.includes(p)` -/
def jsIncludes (s p : String) : Bool := s.data.tails.any (fun t => p.data.isPrefixOf t)

/-! ## Routing header guard (`routing-headers.ts`) -/

/-- `RoutingFlow` -/
inductive RoutingFlow where
  | talkChat
  | slackIngress
  | jobScheduler
deriving DecidableEq, Repr

/-- `ExecutionMode` (from `talk-policy.ts`). -/
inductive ExecutionMode where
  | openclaw
  | fullControl
deriving DecidableEq, Repr

/-- `RoutingGuardCode` -/
inductive RoutingGuardCode where
  | forbiddenAgentHeader
  | forbiddenSessionKey
deriving DecidableEq, Repr

/-- `RoutingGuardError` (the fields captured by the thrown error). -/
structure RoutingGuardError where
  code : RoutingGuardCode
  flow : RoutingFlow
  executionMode : ExecutionMode
  message : String
deriving DecidableEq, Repr

/-- `hasValue`: a header value is a string whose trim is non-empty. -/
def hasValue (value : Option String) : Bool :=
  match value with
  | some s => jsTrim s ≠ ""
  | none => false

/-- Header map: lookup by (lower-case) header name. -/
def HeaderMap := String → Option String

def agentIdHeader : String := "x-openclaw-agent-id"
def sessionKeyHeader : String := "x-openclaw-session-key"

/-- `assertRoutingHeaders`: in `full_control` mode the agent-id header must be
blank/absent and the session key must not be agent-prefixed; the thrown
`RoutingGuardError` is modelled as the `Except.error` case. -/
def assertRoutingHeaders (flow : RoutingFlow) (executionMode : ExecutionMode)
    (headers : HeaderMap) : Except RoutingGuardError Unit :=
  if executionMode ≠ ExecutionMode.fullControl then Except.ok () else
  if hasValue (headers agentIdHeader) then
    Except.error
      { code := RoutingGuardCode.forbiddenAgentHeader
        flow := flow
        executionMode := executionMode
        message := "routing_guard_forbidden_agent_header" }
  else
    let sessionKey := headers sessionKeyHeader
    if hasValue sessionKey &&
        jsStartsWith (jsTrim (sessionKey.getD "")) "agent:" then
      Except.error
        { code := RoutingGuardCode.forbiddenSessionKey
          flow := flow
          executionMode := executionMode
          message := "routing_guard_forbidden_session_key" }
    else Except.ok ()

/-- The session key, after trimming, starts with `agent:`. -/
def sessionKeyAgentPrefixed (headers : HeaderMap) : Bool :=
  match headers sessionKeyHeader with
  | some s => jsStartsWith (jsTrim s) "agent:"
  | none => false

/-! ## Tool affinity learner (`tool-affinity.ts`)

Environment-overridable constants are modelled at their defaults.
`Math.random()` is modelled by an explicit rational `roll` parameter, and the
JS float division `count / total` by the exact rational `mkRat`. -/

def WARMUP_THRESHOLD : Nat := 3
def SLIDING_WINDOW_SIZE : Nat := 50
def EXPLORATION_RATE : Nat := 20
def MIN_AFFINITY_THRESHOLD : ℚ := mkRat 1 10

def COLD_START_INTENTS : List String :=
  ["study", "state_tracking", "conversation", "model_meta"]

/-- `COLD_START_BASELINE_PATTERN.test t` for the regex `/^state_/`. -/
def coldStartBaselineTest (t : String) : Bool := jsStartsWith t "state_"

inductive ObservationSource where
  | talkChat
  | slackIngress
deriving DecidableEq, Repr

structure ToolAffinityObservation where
  timestamp : Int
  intent : String
  availableTools : List String
  usedTools : List String
  toolsOffered : Nat
  model : String
  source : ObservationSource
deriving DecidableEq, Repr

structure IntentToolFrequency where
  intent : String
  totalObservations : Nat
  noToolCount : Nat
  toolCounts : List (String × Nat)
deriving DecidableEq, Repr

structure ToolAffinitySnapshot where
  talkId : String
  computedAt : Int
  intents : List IntentToolFrequency
deriving DecidableEq, Repr

inductive AffinityPhase where
  | warmup
  | learned
  | exploration
deriving DecidableEq, Repr

structure ToolAffinitySelection where
  phase : AffinityPhase
  selectedTools : List String
  prunedTools : List String
  reason : String
deriving DecidableEq, Repr

/-- `toolCounts[key] = (toolCounts[key] ?? 0) + 1` on an insertion-ordered
record (JS object string keys keep insertion order). -/
def assocIncr (l : List (String × Nat)) (k : String) : List (String × Nat) :=
  if l.any (fun kv => kv.1 == k) then
    l.map (fun kv => if kv.1 == k then (kv.1, kv.2 + 1) else kv)
  else l ++ [(k, 1)]

/-- The `byIntent` map of `computeSnapshot` (JS `Map`, insertion-ordered). -/
def groupByIntent (observations : List ToolAffinityObservation) :
    List (String × List ToolAffinityObservation) :=
  observations.foldl
    (fun acc o =>
      if acc.any (fun kv => kv.1 == o.intent) then
        acc.map (fun kv => if kv.1 == o.intent then (kv.1, kv.2 ++ [o]) else kv)
      else acc ++ [(o.intent, [o])])
    []

/-- Per-intent aggregation over the last `SLIDING_WINDOW_SIZE` observations
(`allObs.slice(-SLIDING_WINDOW_SIZE)` and the window loop of
`computeSnapshot`). -/
def intentFrequency (intent : String) (allObs : List ToolAffinityObservation) :
    IntentToolFrequency :=
  let window := allObs.drop (allObs.length - SLIDING_WINDOW_SIZE)
  let acc := window.foldl
    (fun (acc : List (String × Nat) × Nat) o =>
      let noTool := if o.usedTools.length = 0 then acc.2 + 1 else acc.2
      let counts := o.usedTools.foldl (fun a t => assocIncr a (jsLower t)) acc.1
      (counts, noTool))
    ([], 0)
  { intent := intent
    totalObservations := window.length
    noToolCount := acc.2
    toolCounts := acc.1 }

/-- `ToolAffinityStore.computeSnapshot` (the `Date.now()` stamp is the
explicit `now`). -/
def computeSnapshot (talkId : String) (observations : List ToolAffinityObservation)
    (now : Int) : ToolAffinitySnapshot :=
  { talkId := talkId
    computedAt := now
    intents := (groupByIntent observations).map (fun kv => intentFrequency kv.1 kv.2) }

/-- `snapshot?.intents.find((i) => i.intent === intent)` -/
def findIntentData (snapshot : Option ToolAffinitySnapshot) (intent : String) :
    Option IntentToolFrequency :=
  ((snapshot.map (fun s => s.intents)).getD []).find? (fun i => i.intent == intent)

/-- `ToolAffinityStore.resolvePhase`; `roll` is the `Math.random()` draw. -/
def resolvePhase (intent : String) (snapshot : Option ToolAffinitySnapshot)
    (roll : ℚ) : AffinityPhase :=
  let intentData := findIntentData snapshot intent
  let hasEnoughData :=
    match intentData with
    | some d => decide (WARMUP_THRESHOLD ≤ d.totalObservations)
    | none => false
  if !hasEnoughData && !(COLD_START_INTENTS.contains intent) then
    AffinityPhase.warmup
  else if decide (0 < EXPLORATION_RATE) && decide (roll < mkRat 1 EXPLORATION_RATE) then
    AffinityPhase.exploration
  else
    AffinityPhase.learned

/-- `ToolAffinityStore.selectTools` (note: the source takes no cold-start
baseline argument; the repository's test-suite passes one). -/
def selectTools (intent : String) (policyAllowedTools : List String)
    (snapshot : Option ToolAffinitySnapshot) (roll : ℚ) : ToolAffinitySelection :=
  let phase := resolvePhase intent snapshot roll
  if phase = AffinityPhase.warmup || phase = AffinityPhase.exploration then
    { phase := phase
      selectedTools := policyAllowedTools
      prunedTools := []
      reason :=
        if phase = AffinityPhase.warmup then
          s!"warmup: gathering data for intent=\"{intent}\""
        else
          s!"exploration: periodic full-set probe for intent=\"{intent}\"" }
  else
    match findIntentData snapshot intent with
    | none =>
      if COLD_START_INTENTS.contains intent then
        let baseline := policyAllowedTools.filter coldStartBaselineTest
        let pruned := policyAllowedTools.filter (fun t => !coldStartBaselineTest t)
        let n := baseline.length
        { phase := AffinityPhase.learned
          selectedTools := baseline
          prunedTools := pruned
          reason := s!"cold-start: intent=\"{intent}\" baseline={n} state tools" }
      else
        { phase := AffinityPhase.warmup
          selectedTools := policyAllowedTools
          prunedTools := []
          reason := s!"no affinity data for intent=\"{intent}\", falling back to warmup" }
    | some intentData =>
      let affinitySet :=
        (intentData.toolCounts.filter
          (fun kv => MIN_AFFINITY_THRESHOLD ≤ mkRat (kv.2 : Int) intentData.totalObservations)).map
          (fun kv => jsLower kv.1)
      let selectedTools := policyAllowedTools.filter (fun t => affinitySet.contains (jsLower t))
      let prunedTools := policyAllowedTools.filter (fun t => !(affinitySet.contains (jsLower t)))
      let k := affinitySet.length
      let total := intentData.totalObservations
      { phase := AffinityPhase.learned
        selectedTools := selectedTools
        prunedTools := prunedTools
        reason := s!"learned: intent=\"{intent}\" affinity={k} tools from {total} observations" }

/-- `computeAffinityTimeout` — the source has NO `minTimeoutMs` parameter. -/
def computeAffinityTimeout (phase : AffinityPhase) (toolCount : Nat)
    (baseTimeoutMs : Nat) : Nat :=
  match phase with
  | AffinityPhase.warmup => baseTimeoutMs
  | AffinityPhase.exploration => baseTimeoutMs
  | AffinityPhase.learned => min baseTimeoutMs (60000 + toolCount * 20000)

/-! ## Character classes used by the ingress regexes -/

/-- JS `\w`: `[A-Za-z0-9_]`. -/
def isWordChar (c : Char) : Bool :=
  ('a' ≤ c && c ≤ 'z') || ('A' ≤ c && c ≤ 'Z') || ('0' ≤ c && c ≤ '9') || c = '_'

def isAsciiDigit (c : Char) : Bool := '0' ≤ c && c ≤ '9'

/-- `[a-z0-9]` under the `/i` flag. -/
def isAlnumChar (c : Char) : Bool :=
  ('a' ≤ c && c ≤ 'z') || ('A' ≤ c && c ≤ 'Z') || ('0' ≤ c && c ≤ '9')

/-- `[a-z0-9._-]` under the `/i` flag (mention handles). -/
def isHandleChar (c : Char) : Bool :=
  isAlnumChar c || c = '.' || c = '-' || c = '_'

/-- `\b` holds between `prev` (none at string start) and a word character. -/
def boundaryBefore (prev : Option Char) : Bool :=
  match prev with
  | none => true
  | some p => !isWordChar p

/-- `\b` holds after a word character when the rest starts with a non-word
character (or the string ends). -/
def boundaryAfter (rest : List Char) : Bool :=
  match rest with
  | [] => true
  | d :: _ => !isWordChar d

/-- `kw` occurs in the text with `\b` on both sides; `prev` is the character
before the current position.  All keywords begin and end with word
characters. -/
def occursWithBoundary (kw : List Char) : Option Char → List Char → Bool
  | _, [] => false
  | prev, c :: rest =>
    (boundaryBefore prev && kw.isPrefixOf (c :: rest) &&
      boundaryAfter ((c :: rest).drop kw.length)) ||
    occursWithBoundary kw (some c) rest

/-- `/\b(kw₁|…|kwₙ)\b/.test t` for word-delimited keyword alternations. -/
def hasWordFrom (kws : List String) (t : String) : Bool :=
  kws.any (fun k => occursWithBoundary k.data none t.data)

def timeUnitWords : List String :=
  ["h", "hr", "hrs", "hour", "hours", "m", "min", "mins", "minute", "minutes"]

/-- Match `\d+\s*(h|hr|…)\b` at the current position. -/
def matchTimeAt (l : List Char) : Bool :=
  let digits := l.takeWhile isAsciiDigit
  if digits.isEmpty then false
  else
    let rest := (l.drop digits.length).dropWhile isJsWs
    timeUnitWords.any (fun u => u.data.isPrefixOf rest && boundaryAfter (rest.drop u.data.length))

/-- `/\b\d+\s*(h|hr|hrs|hour|hours|m|min|mins|minute|minutes)\b/.test t`. -/
def scanTimeQuantity : Option Char → List Char → Bool
  | _, [] => false
  | prev, c :: rest =>
    (boundaryBefore prev && matchTimeAt (c :: rest)) || scanTimeQuantity (some c) rest

/-! ## Slack ingress (`slack-ingress.ts`) -/

def SLACK_DEFAULT_ACCOUNT : String := "default"

def EVENT_TTL_MS : Int := 6 * 60 * 60000

/-- `s.slice(0, n)` on characters. -/
def takeChars (s : String) (n : Nat) : String := ⟨s.data.take n⟩

/-- Drop the first `n` characters. -/
def dropChars (s : String) (n : Nat) : String := ⟨s.data.drop n⟩

/-- `buildManagedAgentId` (`slack-routing-sync.ts`): `ct-` + first 8 chars. -/
def buildManagedAgentId (talkId : String) : String :=
  "ct-" ++ takeChars talkId 8

/-- `normalizeText`: trims a string, mapping blank/absent to `none`. -/
def normalizeText (value : Option String) : Option String :=
  match value with
  | none => none
  | some s =>
    let trimmed := jsTrim s
    if trimmed ≠ "" then some trimmed else none

/-- The `(channel|user):(.+)` part of the `normalizeTarget` regex
(case-insensitive kind, captured id must be non-empty). -/
def matchKindId (s : String) : Option (String × String) :=
  let low := jsLower s
  if jsStartsWith low "channel:" then
    let id := dropChars s 8
    if id = "" then none else some ("channel", id)
  else if jsStartsWith low "user:" then
    let id := dropChars s 5
    if id = "" then none else some ("user", id)
  else none

/-- `/^(?:slack:)?(channel|user):(.+)$/i` with regex backtracking over the
optional `slack:` prefix. -/
def slackScopedMatch (s : String) : Option (String × String) :=
  if jsStartsWith (jsLower s) "slack:" then
    match matchKindId (dropChars s 6) with
    | some r => some r
    | none => matchKindId s
  else matchKindId s

/-- `/^(?:slack:)?([a-z0-9]+)$/i` returning the captured id. -/
def directIdMatch (s : String) : Option String :=
  let core := if jsStartsWith (jsLower s) "slack:" then dropChars s 6 else s
  if core ≠ "" && core.data.all isAlnumChar then some core else none

/-- `normalizeTarget` -/
def normalizeTarget (value : Option String) : Option String :=
  match value with
  | none => none
  | some v =>
    let trimmed := jsTrim v
    if trimmed = "" then none
    else
      match slackScopedMatch trimmed with
      | some kindId =>
        let rawId := jsTrim kindId.2
        if rawId = "" then none
        else some (kindId.1 ++ ":" ++ jsLower rawId)
      | none =>
        match directIdMatch trimmed with
        | some id =>
          if (match id.data.head? with | some c => c = 'u' || c = 'U' | none => false) then
            some ("user:" ++ jsLower id)
          else
            some ("channel:" ++ jsLower id)
        | none => some (jsLower trimmed)

structure SlackIngressEvent where
  eventId : String
  accountId : Option String
  channelId : String
  channelName : Option String
  threadTs : Option String
  messageTs : Option String
  userId : Option String
  userName : Option String
  outboundTarget : Option String
  text : String
deriving DecidableEq, Repr

/-- `normalizeScope` -/
def normalizeScope (scope : String) : String := jsLower (jsTrim scope)

/-- `normalizeAccountId` (ingress variant, defaulting to `default`). -/
def normalizeAccountId (value : Option String) : String :=
  jsLower (jsTrim (value.getD SLACK_DEFAULT_ACCOUNT))

/-- Strip a single leading `#` (`replace(/^#/, '')`). -/
def stripOneLeadingHash (s : String) : String :=
  match s.data with
  | '#' :: rest => ⟨rest⟩
  | _ => s

/-- `normalizeChannelName` -/
def normalizeChannelName (value : Option String) : Option String :=
  match value with
  | none => none
  | some v =>
    let normalized := jsLower (stripOneLeadingHash (jsTrim v))
    if normalized ≠ "" then some normalized else none

/-- `canWrite` -/
def canWrite (permission : Option String) : Bool :=
  let normalized := jsLower (jsTrim (permission.getD "read+write"))
  normalized = "write" || normalized = "read+write"

structure PlatformBinding where
  id : String
  platform : String
  scope : String
  accountId : Option String
  displayScope : Option String
  permission : String
  createdAt : Int
deriving DecidableEq, Repr

/-- `scoreSlackBinding` -/
def scoreSlackBinding (binding : PlatformBinding) (event : SlackIngressEvent) : Int :=
  if jsLower (jsTrim binding.platform) ≠ "slack" then -1
  else if !canWrite (some binding.permission) then -1
  else
    let bindingAccountId : Option String :=
      match binding.accountId with
      | some a => if jsTrim a ≠ "" then some (normalizeAccountId (some a)) else none
      | none => none
    let explicitEventAccountId : Option String :=
      match event.accountId with
      | some a => if jsTrim a ≠ "" then some (normalizeAccountId (some a)) else none
      | none => none
    if bindingAccountId.isSome && explicitEventAccountId.isSome &&
        bindingAccountId ≠ explicitEventAccountId then -1
    else
      let scope := normalizeScope binding.scope
      if scope = "" then -1
      else
        let channelId := jsLower (jsTrim event.channelId)
        let channelName := normalizeChannelName event.channelName
        let outboundTarget := normalizeTarget event.outboundTarget
        if scope = "*" || scope = "all" || scope = "slack:*" then 10
        else if scope = channelId || scope = "channel:" ++ channelId ||
            scope = "user:" ++ channelId || scope = "slack:" ++ channelId then 100
        else if (match outboundTarget with
                 | some t => scope = t || scope = "slack:" ++ t
                 | none => false) then 95
        else
          match channelName with
          | some cn =>
            if scope = "#" ++ cn || scope = cn then 90
            else if jsEndsWith scope (" #" ++ cn) then 80
            else -1
          | none => -1

/-! ## Talk data model (`types.ts` / `talk-store.ts`) -/

inductive ResponseMode where
  | off
  | mentions
  | all
deriving DecidableEq, Repr

inductive MirrorMode where
  | off
  | inbound
  | full
deriving DecidableEq, Repr

inductive DeliveryMode where
  | thread
  | channel
  | adaptive
deriving DecidableEq, Repr

inductive TriggerPolicy where
  | judgment
  | studyEntriesOnly
  | adviceOrStudy
deriving DecidableEq, Repr

inductive ToolMode where
  | off
  | confirm
  | auto
deriving DecidableEq, Repr

inductive FilesystemAccess where
  | workspaceSandbox
  | fullHostAccess
deriving DecidableEq, Repr

inductive NetworkAccess where
  | restricted
  | fullOutbound
deriving DecidableEq, Repr

inductive JobType where
  | once
  | recurring
  | event
deriving DecidableEq, Repr

inductive JobOutputDestination where
  | reportOnly
  | talk
  | slack (channelId : String) (accountId : Option String) (threadTs : Option String)
deriving DecidableEq, Repr

inductive MessageRole where
  | user
  | assistant
  | system
deriving DecidableEq, Repr

structure ResponsePolicy where
  triggerPolicy : Option TriggerPolicy
  allowedSenders : Option (List String)
  minConfidence : Option ℚ
deriving DecidableEq, Repr

/-- A stored platform behavior row; `autoRespond` is the legacy field the
ingress reads through a cast (normalization never emits it). -/
structure PlatformBehavior where
  id : String
  platformBindingId : String
  responseMode : Option ResponseMode
  mirrorToTalk : Option MirrorMode
  agentName : Option String
  onMessagePrompt : Option String
  deliveryMode : Option DeliveryMode
  responsePolicy : Option ResponsePolicy
  autoRespond : Option Bool
  createdAt : Int
  updatedAt : Int
deriving DecidableEq, Repr

structure TalkAgent where
  name : String
  model : Option String
  role : Option String
  isPrimary : Option Bool
deriving DecidableEq, Repr

structure Directive where
  id : String
  text : String
  active : Bool
  createdAt : Int
deriving DecidableEq, Repr

structure TalkJob where
  id : String
  type : JobType
  schedule : String
  prompt : String
  output : JobOutputDestination
  active : Bool
  createdAt : Int
  lastRunAt : Option Int
  lastStatus : Option String
deriving DecidableEq, Repr

structure TalkMessage where
  id : String
  role : MessageRole
  content : String
  timestamp : Int
deriving DecidableEq, Repr

structure TalkMeta where
  id : String
  talkVersion : Int
  changeId : String
  lastModifiedAt : Int
  lastModifiedBy : Option String
  topicTitle : Option String
  objective : Option String
  model : Option String
  googleAuthProfile : Option String
  agents : List TalkAgent
  pinnedMessageIds : List String
  directives : List Directive
  platformBindings : List PlatformBinding
  platformBehaviors : List PlatformBehavior
  jobs : List TalkJob
  executionMode : ExecutionMode
  filesystemAccess : FilesystemAccess
  networkAccess : NetworkAccess
  toolMode : ToolMode
  toolsAllow : List String
  toolsDeny : List String
  processing : Bool
  createdAt : Int
  updatedAt : Int
deriving DecidableEq, Repr

/-- The store's in-memory map, viewed through `listTalks` order. -/
def getTalk (store : List TalkMeta) (id : String) : Option TalkMeta :=
  store.find? (fun t => t.id == id)

/-! ## Ownership resolution (`resolveOwnerTalk`) -/

structure OwnerResolution where
  talkId : Option String
  reason : Option String
  binding : Option PlatformBinding
deriving DecidableEq, Repr

/-- One step of the inner loop of `resolveOwnerTalk`
(`if (score > talkScore) { talkScore = score; talkBestBinding = binding }`). -/
def scoreStep (event : SlackIngressEvent) (acc : Int × Option PlatformBinding)
    (b : PlatformBinding) : Int × Option PlatformBinding :=
  let score := scoreSlackBinding b event
  if acc.1 < score then (score, some b) else acc

/-- The inner loop of `resolveOwnerTalk`: running `(talkScore, talkBestBinding)`
over a Talk's bindings. -/
def talkBestBinding (bindings : List PlatformBinding) (event : SlackIngressEvent) :
    Int × Option PlatformBinding :=
  bindings.foldl (scoreStep event) (-1, none)

/-- One step of the outer loop of `resolveOwnerTalk` (skip non-scoring Talks,
reset the candidate list on a strictly better score, append on a tie). -/
def resolveStep (event : SlackIngressEvent)
    (st : Int × List (TalkMeta × PlatformBinding)) (talk : TalkMeta) :
    Int × List (TalkMeta × PlatformBinding) :=
  match (talkBestBinding talk.platformBindings event).2 with
  | none => st
  | some b =>
    let s := (talkBestBinding talk.platformBindings event).1
    if s < 0 then st
    else if st.1 < s then (s, [(talk, b)])
    else if s = st.1 then (st.1, st.2 ++ [(talk, b)])
    else st

/-- The outer loop of `resolveOwnerTalk`: running `(bestScore, candidates)`. -/
def resolveLoop (talks : List TalkMeta) (event : SlackIngressEvent) :
    Int × List (TalkMeta × PlatformBinding) :=
  talks.foldl (resolveStep event) (-1, [])

/-- `resolveOwnerTalk` (the logger argument only emits diagnostics). -/
def resolveOwnerTalk (talks : List TalkMeta) (event : SlackIngressEvent) :
    OwnerResolution :=
  match (resolveLoop talks event).2 with
  | [] => { talkId := none, reason := some "no-binding", binding := none }
  | [c] => { talkId := some c.1.id, reason := none, binding := some c.2 }
  | _ => { talkId := none, reason := some "ambiguous-binding", binding := none }

/-! ## Behavior gate -/

/-- The record returned by `resolveBehaviorForBinding`. -/
structure ResolvedBehavior where
  responseMode : Option ResponseMode
  agentName : Option String
  onMessagePrompt : Option String
  mirrorToTalk : Option MirrorMode
  deliveryMode : Option DeliveryMode
  responsePolicy : Option ResponsePolicy
deriving DecidableEq, Repr

/-- `resolveBehaviorForBinding` -/
def resolveBehaviorForBinding (meta : TalkMeta) (bindingId : String) :
    Option ResolvedBehavior :=
  match meta.platformBehaviors.find? (fun entry => entry.platformBindingId == bindingId) with
  | none => none
  | some behavior =>
    let responseMode :=
      match behavior.responseMode with
      | some m => some m
      | none => if behavior.autoRespond = some false then some ResponseMode.off else none
    let triggerPolicy := behavior.responsePolicy.bind (fun p => p.triggerPolicy)
    let allowedSenders := behavior.responsePolicy.bind (fun p => p.allowedSenders)
    let minConfidence := behavior.responsePolicy.bind (fun p => p.minConfidence)
    let sendersNonEmpty :=
      match allowedSenders with
      | some l => decide (0 < l.length)
      | none => false
    some
      { responseMode := responseMode
        agentName :=
          match behavior.agentName with
          | some a => if jsTrim a ≠ "" then some (jsTrim a) else none
          | none => none
        onMessagePrompt :=
          match behavior.onMessagePrompt with
          | some p => if jsTrim p ≠ "" then some (jsTrim p) else none
          | none => none
        mirrorToTalk := behavior.mirrorToTalk
        deliveryMode := behavior.deliveryMode
        responsePolicy :=
          if triggerPolicy.isSome || sendersNonEmpty || minConfidence.isSome then
            some
              { triggerPolicy := triggerPolicy
                allowedSenders := if sendersNonEmpty then allowedSenders else none
                minConfidence := minConfidence }
          else none }

/-- `senderAllowed` -/
def senderAllowed (behavior : Option ResolvedBehavior)
    (userId userName : Option String) : Bool :=
  let allowed := (behavior.bind (fun b => b.responsePolicy)).bind (fun p => p.allowedSenders)
  match allowed with
  | none => true
  | some l =>
    if l.length = 0 then true
    else
      let keys := (l.map (fun e => jsLower (jsTrim e))).filter (fun s => s ≠ "")
      if keys.length = 0 then true
      else
        let candidates :=
          (([userName, userId].filterMap id).map (fun v => jsLower (jsTrim v))).filter
            (fun s => s ≠ "")
        candidates.any (fun c => keys.contains c)

/-- `messageLooksLikeMention`: `/<@[A-Z0-9]+>/i` scan. -/
def mentionAngleScan (l : List Char) : Bool :=
  l.tails.any (fun t =>
    match t with
    | '<' :: '@' :: rest =>
      let run := rest.takeWhile isAlnumChar
      decide (run ≠ []) && ((rest.drop run.length).head? == some '>')
    | _ => false)

/-- `messageLooksLikeMention`: `/\B@[a-z0-9._-]{2,}/i` scan (`\B` before `@`
holds when the previous character is not a word character). -/
def mentionAtScan : Option Char → List Char → Bool
  | _, [] => false
  | prev, c :: rest =>
    (c = '@' && !(match prev with | some p => isWordChar p | none => false) &&
      decide (2 ≤ (rest.takeWhile isHandleChar).length)) ||
    mentionAtScan (some c) rest

/-- `messageLooksLikeMention` -/
def messageLooksLikeMention (text : String) : Bool :=
  let trimmed := jsTrim text
  if trimmed = "" then false
  else mentionAngleScan trimmed.data || mentionAtScan none trimmed.data

def studyKeywords : List String :=
  ["study", "studied", "homework", "mathcounts", "khan", "practice", "worked",
   "work", "productive", "coding", "art", "project"]

def adviceKeywords : List String :=
  ["help", "advice", "how do i", "what should i", "can you", "should i", "guidance"]

/-- `looksLikeStudyEntry` -/
def looksLikeStudyEntry (text : String) : Bool :=
  let t := jsLower text
  if jsTrim t = "" then false
  else scanTimeQuantity none t.data && hasWordFrom studyKeywords t

/-- `looksLikeAdviceRequest` -/
def looksLikeAdviceRequest (text : String) : Bool :=
  let t := jsLower text
  if jsTrim t = "" then false
  else hasWordFrom adviceKeywords t

inductive MessageIntent where
  | study
  | advice
  | other
deriving DecidableEq, Repr

/-- `resolveMessageIntent` -/
def resolveMessageIntent (eventText : String) : MessageIntent :=
  if looksLikeStudyEntry eventText then MessageIntent.study
  else if looksLikeAdviceRequest eventText then MessageIntent.advice
  else MessageIntent.other

/-- The record returned by `shouldHandleViaBehavior`. -/
structure BehaviorDecision where
  handle : Bool
  reason : Option String
  behavior : Option ResolvedBehavior
  intent : Option MessageIntent
deriving DecidableEq, Repr

/-- `shouldHandleViaBehavior` -/
def shouldHandleViaBehavior (meta : TalkMeta) (bindingId : String)
    (text : String) (userId userName : Option String) : BehaviorDecision :=
  match resolveBehaviorForBinding meta bindingId with
  | none =>
    -- Missing behavior row means "use default talk behavior" for this binding.
    { handle := true, reason := none, behavior := none,
      intent := some (resolveMessageIntent text) }
  | some behavior =>
    if !senderAllowed (some behavior) userId userName then
      { handle := false, reason := some "sender-not-allowed", behavior := none, intent := none }
    else
      let responseMode := behavior.responseMode.getD ResponseMode.all
      if responseMode = ResponseMode.off then
        { handle := false, reason := some "on-message-disabled", behavior := none, intent := none }
      else if responseMode = ResponseMode.mentions && !messageLooksLikeMention text then
        { handle := false, reason := some "mention-required", behavior := none, intent := none }
      else
        let intent := resolveMessageIntent text
        let triggerPolicy :=
          (behavior.responsePolicy.bind (fun p => p.triggerPolicy)).getD TriggerPolicy.judgment
        if triggerPolicy = TriggerPolicy.studyEntriesOnly && intent ≠ MessageIntent.study then
          { handle := false, reason := some "trigger-policy-no-match", behavior := none, intent := none }
        else if triggerPolicy = TriggerPolicy.adviceOrStudy && intent = MessageIntent.other then
          { handle := false, reason := some "trigger-policy-no-match", behavior := none, intent := none }
        else
          { handle := true, reason := none, behavior := some behavior, intent := some intent }

/-- `buildInboundMessage` -/
def buildInboundMessage (event : SlackIngressEvent) : String :=
  let sender :=
    match event.userName with
    | some n => n
    | none => match event.userId with | some u => u | none => "unknown"
  let channelLabel :=
    match event.channelName with
    | some n => "#" ++ stripOneLeadingHash n
    | none => "#" ++ event.channelId
  let threadSuffix :=
    match event.threadTs with
    | some t => " (thread " ++ t ++ ")"
    | none => ""
  "[Slack " ++ channelLabel ++ threadSuffix ++ " from " ++ sender ++ "]\n" ++ event.text

/-! ## Ownership inspection and routing -/

inductive Decision where
  | handled
  | pass
deriving DecidableEq, Repr

structure SlackOwnershipInspection where
  decision : Decision
  talkId : Option String
  reason : Option String
  bindingId : Option String
  behaviorAgentName : Option String
  behaviorOnMessagePrompt : Option String
  behaviorMirrorToTalk : Option MirrorMode
  behaviorDeliveryMode : Option DeliveryMode
  behaviorIntent : Option MessageIntent
deriving DecidableEq, Repr

/-- `inspectSlackOwnership` (ownership is resolved on the event with a blanked
text, the behavior gate then sees the real text). -/
def inspectSlackOwnership (event : SlackIngressEvent) (store : List TalkMeta) :
    SlackOwnershipInspection :=
  let owner := resolveOwnerTalk store { event with text := "" }
  match owner.talkId, owner.binding with
  | some talkId, some binding =>
    (match getTalk store talkId with
     | none =>
       { decision := Decision.pass, talkId := some talkId,
         reason := some "talk-not-found", bindingId := some binding.id,
         behaviorAgentName := none, behaviorOnMessagePrompt := none,
         behaviorMirrorToTalk := none, behaviorDeliveryMode := none,
         behaviorIntent := none }
     | some ownerTalk =>
       let bd := shouldHandleViaBehavior ownerTalk binding.id event.text event.userId event.userName
       if !bd.handle then
         { decision := Decision.pass, talkId := some talkId,
           reason := some (bd.reason.getD "no-platform-behavior"),
           bindingId := some binding.id,
           behaviorAgentName := none, behaviorOnMessagePrompt := none,
           behaviorMirrorToTalk := none, behaviorDeliveryMode := none,
           behaviorIntent := none }
       else
         { decision := Decision.handled, talkId := some talkId, reason := none,
           bindingId := some binding.id,
           behaviorAgentName := bd.behavior.bind (fun b => b.agentName),
           behaviorOnMessagePrompt := bd.behavior.bind (fun b => b.onMessagePrompt),
           behaviorMirrorToTalk := bd.behavior.bind (fun b => b.mirrorToTalk),
           behaviorDeliveryMode := bd.behavior.bind (fun b => b.deliveryMode),
           behaviorIntent := bd.intent })
  | _, _ =>
    { decision := Decision.pass, talkId := none,
      reason := some (owner.reason.getD "no-binding"), bindingId := none,
      behaviorAgentName := none, behaviorOnMessagePrompt := none,
      behaviorMirrorToTalk := none, behaviorDeliveryMode := none,
      behaviorIntent := none }

structure SeenDecision where
  ts : Int
  decision : Decision
  talkId : Option String
  reason : Option String
deriving DecidableEq, Repr

/-- The module-local mutable ingress state (`seenEvents`,
`runtimeCountersByTalkId`). -/
structure IngressState where
  seen : List (String × SeenDecision)
  counters : List (String × Nat)
deriving DecidableEq, Repr

/-- `pruneSeenEvents`: delete entries older than the TTL. -/
def pruneSeenEvents (now : Int) (seen : List (String × SeenDecision)) :
    List (String × SeenDecision) :=
  seen.filter (fun kv => !(decide (EVENT_TTL_MS < now - kv.2.ts)))

/-- `seenEvents.get` -/
def findSeen (seen : List (String × SeenDecision)) (k : String) : Option SeenDecision :=
  (seen.find? (fun kv => kv.1 == k)).map (fun kv => kv.2)

/-- `seenEvents.set` (JS `Map`: replace existing key, else append). -/
def setSeen (seen : List (String × SeenDecision)) (k : String) (v : SeenDecision) :
    List (String × SeenDecision) :=
  if seen.any (fun kv => kv.1 == k) then
    seen.map (fun kv => if kv.1 == k then (k, v) else kv)
  else seen ++ [(k, v)]

structure SlackOwnershipDecision where
  decision : Decision
  eventId : String
  talkId : Option String
  reason : Option String
  duplicate : Option Bool
deriving DecidableEq, Repr

/-- Observable side effects of routing.  The deps hand the ingress a tool
executor (LLM access) and a direct Slack sender; the effect vocabulary covers
them so that "the ingress never itself calls the LLM" is expressible.  The
translated body only ever emits `mirrorAppend` (the fire-and-forget
`store.appendMessage` mirror). -/
inductive IngressEffect where
  | mirrorAppend (talkId : String) (msg : TalkMessage)
  | llmCall (sessionKey : String) (prompt : String)
  | slackSend (channelId : String) (message : String)
deriving DecidableEq, Repr

structure RouteResult where
  statusCode : Nat
  payload : SlackOwnershipDecision
  state : IngressState
  effects : List IngressEffect
deriving DecidableEq, Repr

/-- `routeSlackIngressEvent`.  `now` stands for `Date.now()` and `uuid` for
the `randomUUID()` of the mirrored message. -/
def routeSlackIngressEvent (event : SlackIngressEvent) (store : List TalkMeta)
    (st : IngressState) (now : Int) (uuid : String) : RouteResult :=
  let seen1 := pruneSeenEvents now st.seen
  match findSeen seen1 event.eventId with
  | some seenEntry =>
    { statusCode := 200
      payload :=
        { decision := seenEntry.decision, eventId := event.eventId,
          talkId := seenEntry.talkId, reason := seenEntry.reason,
          duplicate := some true }
      state := { seen := seen1, counters := st.counters }
      effects := [] }
  | none =>
    let ownership := inspectSlackOwnership event store
    if ownership.decision = Decision.pass ∨ ownership.talkId = none ∨
        ownership.bindingId = none then
      let reason := ownership.reason.getD "no-binding"
      let counters1 :=
        match ownership.talkId with
        | some tid => assocIncr st.counters tid
        | none => st.counters
      let seen2 := setSeen seen1 event.eventId
        { ts := now, decision := Decision.pass, talkId := none, reason := some reason }
      { statusCode := 200
        payload :=
          { decision := Decision.pass, eventId := event.eventId, talkId := none,
            reason := some reason, duplicate := none }
        state := { seen := seen2, counters := counters1 }
        effects := [] }
    else
      let tid := ownership.talkId.getD ""
      match getTalk store tid with
      | some _ =>
        -- All Talk-bound channels delegate to the host's managed agent.
        let reason := "delegated-to-agent"
        let seen2 := setSeen seen1 event.eventId
          { ts := now, decision := Decision.pass, talkId := some tid, reason := some reason }
        let counters1 := assocIncr st.counters tid
        let mirrorMode := ownership.behaviorMirrorToTalk.getD MirrorMode.off
        let effects :=
          if mirrorMode = MirrorMode.inbound ∨ mirrorMode = MirrorMode.full then
            [IngressEffect.mirrorAppend tid
              { id := uuid, role := MessageRole.user,
                content := buildInboundMessage event, timestamp := now }]
          else []
        { statusCode := 200
          payload :=
            { decision := Decision.pass, eventId := event.eventId,
              talkId := some tid, reason := some reason, duplicate := none }
          state := { seen := seen2, counters := counters1 }
          effects := effects }
      | none =>
        { statusCode := 200
          payload :=
            { decision := Decision.pass, eventId := event.eventId, talkId := none,
              reason := some "talk-not-found", duplicate := none }
          state :=
            { seen := setSeen seen1 event.eventId
                { ts := now, decision := Decision.pass, talkId := none,
                  reason := some "talk-not-found" }
              counters := st.counters }
          effects := [] }

/-! ## Talk store normalizers (`talk-store.ts`)

Inputs that the source receives as `unknown` are modelled at the level the
`typeof` checks observe: a field of the wrong type or absent is `none`.
`Date.now()` is the explicit `now`; each `randomUUID()` for a list entry is
`fresh i` at the entry's index. -/

/-- `isValidId`: `/^[\w-]+$/.test(id) && !id.includes('..')`. -/
def isValidId (id : String) : Bool :=
  decide (id.data ≠ []) && id.data.all (fun c => isWordChar c || c = '-') &&
    !(jsIncludes id "..")

/-- `normalizePermission` -/
def normalizePermission (raw : Option String) : String :=
  let value := jsLower (jsTrim (raw.getD ""))
  if value = "read" || value = "write" || value = "read+write" then value
  else "read+write"

/-- `normalizeToolMode` -/
def normalizeToolMode (raw : Option String) : ToolMode :=
  let value := jsLower (jsTrim (raw.getD ""))
  if value = "off" then ToolMode.off
  else if value = "confirm" then ToolMode.confirm
  else if value = "auto" then ToolMode.auto
  else ToolMode.auto

/-- `normalizeResponseMode` -/
def normalizeResponseMode (raw : Option String) : Option ResponseMode :=
  let value := jsLower (jsTrim (raw.getD ""))
  if value = "off" then some ResponseMode.off
  else if value = "mentions" then some ResponseMode.mentions
  else if value = "all" then some ResponseMode.all
  else none

/-- `normalizeMirrorToTalk` -/
def normalizeMirrorToTalk (raw : Option String) : Option MirrorMode :=
  let value := jsLower (jsTrim (raw.getD ""))
  if value = "off" then some MirrorMode.off
  else if value = "inbound" then some MirrorMode.inbound
  else if value = "full" then some MirrorMode.full
  else none

/-- `normalizeDeliveryMode` -/
def normalizeDeliveryMode (raw : Option String) : Option DeliveryMode :=
  let value := jsLower (jsTrim (raw.getD ""))
  if value = "thread" then some DeliveryMode.thread
  else if value = "channel" then some DeliveryMode.channel
  else if value = "adaptive" then some DeliveryMode.adaptive
  else none

/-- `normalizeTriggerPolicy` -/
def normalizeTriggerPolicy (raw : Option String) : Option TriggerPolicy :=
  let value := jsLower (jsTrim (raw.getD ""))
  if value = "judgment" then some TriggerPolicy.judgment
  else if value = "study_entries_only" then some TriggerPolicy.studyEntriesOnly
  else if value = "advice_or_study" then some TriggerPolicy.adviceOrStudy
  else none

/-- `normalizeAllowedSenders`: trim, drop blanks, dedupe case-insensitively
(first occurrence wins), empty result maps to `none`. -/
def normalizeAllowedSenders (raw : Option (List String)) : Option (List String) :=
  match raw with
  | none => none
  | some entries =>
    let out := (entries.foldl
      (fun (acc : List String × List String) e =>
        let value := jsTrim e
        if value = "" then acc
        else
          let key := jsLower value
          if acc.2.contains key then acc
          else (acc.1 ++ [value], acc.2 ++ [key]))
      ([], [])).1
    if out ≠ [] then some out else none

/-- `normalizeExecutionMode` (with legacy-value migration). -/
def normalizeExecutionMode (raw : Option String) : ExecutionMode :=
  let value := jsLower (jsTrim (raw.getD ""))
  if value = "openclaw" then ExecutionMode.openclaw
  else if value = "full_control" then ExecutionMode.fullControl
  else if value = "unsandboxed" then ExecutionMode.fullControl
  else if value = "inherit" || value = "sandboxed" then ExecutionMode.openclaw
  else ExecutionMode.openclaw

/-- `normalizeFilesystemAccess` -/
def normalizeFilesystemAccess (raw : Option String) : FilesystemAccess :=
  let value := jsLower (jsTrim (raw.getD ""))
  if value = "workspace_sandbox" || value = "workspace" || value = "sandbox" then
    FilesystemAccess.workspaceSandbox
  else if value = "full_host_access" || value = "full_host" || value = "full" then
    FilesystemAccess.fullHostAccess
  else FilesystemAccess.fullHostAccess

/-- `normalizeNetworkAccess` -/
def normalizeNetworkAccess (raw : Option String) : NetworkAccess :=
  let value := jsLower (jsTrim (raw.getD ""))
  if value = "restricted" then NetworkAccess.restricted
  else if value = "full_outbound" || value = "full" then NetworkAccess.fullOutbound
  else NetworkAccess.fullOutbound

/-- `/^[a-zA-Z0-9_.-]+$/` character class for tool names. -/
def isToolNameChar (c : Char) : Bool :=
  isAlnumChar c || c = '_' || c = '.' || c = '-'

/-- `normalizeToolNames`: trim, regex-filter, dedupe case-insensitively. -/
def normalizeToolNames (input : List String) : List String :=
  (input.foldl
    (fun (acc : List String × List String) entry =>
      let name := jsTrim entry
      if name = "" then acc
      else if !(decide (name.data ≠ []) && name.data.all isToolNameChar) then acc
      else
        let key := jsLower name
        if acc.2.contains key then acc
        else (acc.1 ++ [name], acc.2 ++ [key]))
    ([], [])).1

/-- `[a-z0-9_.-]` class kept by `normalizeGoogleAuthProfile` (input already
lower-cased). -/
def isProfileChar (c : Char) : Bool :=
  ('a' ≤ c && c ≤ 'z') || ('0' ≤ c && c ≤ '9') || c = '_' || c = '.' || c = '-'

/-- `replace(/[^a-z0-9_.-]+/g, '-')`: every maximal invalid run becomes one
dash. -/
def collapseInvalidRuns (l : List Char) : List Char :=
  (l.foldl
    (fun (acc : List Char × Bool) c =>
      if isProfileChar c then (acc.1 ++ [c], false)
      else if acc.2 then acc
      else (acc.1 ++ ['-'], true))
    ([], false)).1

/-- `replace(/^-+|-+$/g, '')` -/
def stripEdgeDashes (l : List Char) : List Char :=
  ((l.dropWhile (fun c => c = '-')).reverse.dropWhile (fun c => c = '-')).reverse

/-- `normalizeGoogleAuthProfile` -/
def normalizeGoogleAuthProfile (raw : Option String) : Option String :=
  match raw with
  | none => none
  | some s =>
    let trimmed := jsLower (jsTrim s)
    if trimmed = "" then none
    else
      let normalized : String := ⟨stripEdgeDashes (collapseInvalidRuns trimmed.data)⟩
      if normalized ≠ "" then some normalized else none

/-- Raw (unknown-shaped) directive row. -/
structure RawDirective where
  id : Option String
  text : Option String
  active : Option Bool
  createdAt : Option Int
deriving DecidableEq, Repr

/-- `normalizeDirectives` -/
def normalizeDirectives (input : List RawDirective) (now : Int)
    (fresh : Nat → String) : List Directive :=
  input.enum.filterMap
    (fun p =>
      match p.2.text with
      | none => none
      | some t0 =>
        let text := jsTrim t0
        if text = "" then none
        else
          some
            { id :=
                match p.2.id with
                | some s => if jsTrim s ≠ "" then jsTrim s else fresh p.1
                | none => fresh p.1
              text := text
              active := !(p.2.active = some false)
              createdAt := p.2.createdAt.getD now })

/-- Raw job-output row. -/
structure RawJobOutput where
  type : Option String
  channelId : Option String
  accountId : Option String
  threadTs : Option String
deriving DecidableEq, Repr

/-- `normalizeJobOutput` -/
def normalizeJobOutput (raw : Option RawJobOutput) : JobOutputDestination :=
  match raw with
  | none => JobOutputDestination.reportOnly
  | some row =>
    let ty := jsLower (jsTrim (row.type.getD ""))
    if ty = "talk" then JobOutputDestination.talk
    else if ty = "slack" then
      let channelId := jsTrim (row.channelId.getD "")
      let accountId := jsTrim (row.accountId.getD "")
      let threadTs := jsTrim (row.threadTs.getD "")
      if channelId = "" then JobOutputDestination.reportOnly
      else
        JobOutputDestination.slack channelId
          (if accountId ≠ "" then some accountId else none)
          (if threadTs ≠ "" then some threadTs else none)
    else JobOutputDestination.reportOnly

/-- Raw platform-binding row. -/
structure RawBinding where
  id : Option String
  platform : Option String
  scope : Option String
  accountId : Option String
  displayScope : Option String
  permission : Option String
  createdAt : Option Int
deriving DecidableEq, Repr

/-- `normalizePlatformBindings` -/
def normalizePlatformBindings (input : List RawBinding) (now : Int)
    (fresh : Nat → String) : List PlatformBinding :=
  input.enum.filterMap
    (fun p =>
      let platform := jsTrim (p.2.platform.getD "")
      let scope := jsTrim (p.2.scope.getD "")
      if platform = "" || scope = "" then none
      else
        let accountId := jsTrim (p.2.accountId.getD "")
        let displayScope := jsTrim (p.2.displayScope.getD "")
        some
          { id :=
              match p.2.id with
              | some s => if jsTrim s ≠ "" then jsTrim s else fresh p.1
              | none => fresh p.1
            platform := platform
            scope := scope
            accountId := if accountId ≠ "" then some accountId else none
            displayScope := if displayScope ≠ "" then some displayScope else none
            permission := normalizePermission p.2.permission
            createdAt := p.2.createdAt.getD now })

/-- Raw response-policy row. -/
structure RawResponsePolicy where
  triggerPolicy : Option String
  allowedSenders : Option (List String)
  minConfidence : Option ℚ
deriving DecidableEq, Repr

/-- Raw platform-behavior row. -/
structure RawBehavior where
  id : Option String
  platformBindingId : Option String
  agentName : Option String
  onMessagePrompt : Option String
  autoRespond : Option Bool
  responseMode : Option String
  mirrorToTalk : Option String
  deliveryMode : Option String
  responsePolicy : Option RawResponsePolicy
  createdAt : Option Int
  updatedAt : Option Int
deriving DecidableEq, Repr

/-- `normalizePlatformBehaviors` (every in-repo call site passes the bindings
array, so the binding-id check is always enforced). -/
def normalizePlatformBehaviors (input : List RawBehavior)
    (bindings : List PlatformBinding) (now : Int) (fresh : Nat → String) :
    List PlatformBehavior :=
  let bindingIds := bindings.map (fun b => b.id)
  input.enum.filterMap
    (fun p =>
      let row := p.2
      let platformBindingId := jsTrim (row.platformBindingId.getD "")
      if platformBindingId = "" then none
      else if !(bindingIds.contains platformBindingId) then none
      else
        let agentName := jsTrim (row.agentName.getD "")
        let onMessagePrompt := jsTrim (row.onMessagePrompt.getD "")
        let responseMode :=
          match normalizeResponseMode row.responseMode with
          | some m => some m
          | none =>
            if row.autoRespond = some false then some ResponseMode.off
            else if row.autoRespond = some true then some ResponseMode.all
            else none
        let mirrorToTalk := normalizeMirrorToTalk row.mirrorToTalk
        let deliveryMode := normalizeDeliveryMode row.deliveryMode
        let triggerPolicy := row.responsePolicy.bind (fun q => normalizeTriggerPolicy q.triggerPolicy)
        let allowedSenders := row.responsePolicy.bind (fun q => normalizeAllowedSenders q.allowedSenders)
        let minConfidence := row.responsePolicy.bind (fun q => q.minConfidence)
        if agentName = "" && onMessagePrompt = "" && responseMode = none &&
            mirrorToTalk = none && deliveryMode = none && triggerPolicy = none &&
            allowedSenders = none && minConfidence = none then none
        else
          some
            { id :=
                match row.id with
                | some s => if jsTrim s ≠ "" then jsTrim s else fresh p.1
                | none => fresh p.1
              platformBindingId := platformBindingId
              responseMode := responseMode
              mirrorToTalk := mirrorToTalk
              agentName := if agentName ≠ "" then some agentName else none
              onMessagePrompt := if onMessagePrompt ≠ "" then some onMessagePrompt else none
              deliveryMode := deliveryMode
              responsePolicy :=
                if triggerPolicy ≠ none || allowedSenders ≠ none || minConfidence ≠ none then
                  some
                    { triggerPolicy := triggerPolicy
                      allowedSenders := allowedSenders
                      minConfidence := minConfidence }
                else none
              autoRespond := none
              createdAt := row.createdAt.getD now
              updatedAt := row.updatedAt.getD now })

def responseModeToRaw (m : ResponseMode) : String :=
  match m with
  | ResponseMode.off => "off"
  | ResponseMode.mentions => "mentions"
  | ResponseMode.all => "all"

def mirrorModeToRaw (m : MirrorMode) : String :=
  match m with
  | MirrorMode.off => "off"
  | MirrorMode.inbound => "inbound"
  | MirrorMode.full => "full"

def deliveryModeToRaw (m : DeliveryMode) : String :=
  match m with
  | DeliveryMode.thread => "thread"
  | DeliveryMode.channel => "channel"
  | DeliveryMode.adaptive => "adaptive"

def triggerPolicyToRaw (m : TriggerPolicy) : String :=
  match m with
  | TriggerPolicy.judgment => "judgment"
  | TriggerPolicy.studyEntriesOnly => "study_entries_only"
  | TriggerPolicy.adviceOrStudy => "advice_or_study"

/-- View of a stored behavior row as the raw JSON the normalizer re-reads
(used when `updateTalk`/`setPlatformBindings` re-normalize current rows
against new bindings). -/
def PlatformBehavior.toRaw (b : PlatformBehavior) : RawBehavior :=
  { id := some b.id
    platformBindingId := some b.platformBindingId
    agentName := b.agentName
    onMessagePrompt := b.onMessagePrompt
    autoRespond := b.autoRespond
    responseMode := b.responseMode.map responseModeToRaw
    mirrorToTalk := b.mirrorToTalk.map mirrorModeToRaw
    deliveryMode := b.deliveryMode.map deliveryModeToRaw
    responsePolicy :=
      b.responsePolicy.map (fun q =>
        { triggerPolicy := q.triggerPolicy.map triggerPolicyToRaw
          allowedSenders := q.allowedSenders
          minConfidence := q.minConfidence })
    createdAt := some b.createdAt
    updatedAt := some b.updatedAt }

/-! ## Talk store mutations -/

inductive TalkMutationType where
  | created
  | updated
  | deleted
  | messageAppended
  | messagesDeleted
  | pinAdded
  | pinRemoved
  | jobAdded
  | jobUpdated
  | jobDeleted
  | agentAdded
  | agentRemoved
  | agentsSet
  | directivesSet
  | bindingsSet
  | behaviorsSet
deriving DecidableEq, Repr

/-- JS `options?.modifiedBy || 'gateway'` (empty string is falsy). -/
def modifiedByOrGateway (modifiedBy : Option String) : String :=
  match modifiedBy with
  | some s => if s = "" then "gateway" else s
  | none => "gateway"

/-- `TalkStore.touchMeta` (the mutation type only labels the emitted change
event; `uuid` is the fresh `randomUUID()` change id). -/
def touchMeta (meta : TalkMeta) (_mtype : TalkMutationType) (now : Int)
    (uuid : String) (modifiedBy : Option String) (skipVersionBump : Bool) :
    TalkMeta :=
  let meta' :=
    if skipVersionBump then meta
    else
      { meta with
        talkVersion := max 1 (meta.talkVersion + 1)
        changeId := uuid
        lastModifiedAt := now
        lastModifiedBy := some (modifiedByOrGateway modifiedBy) }
  { meta' with updatedAt := now }

/-- `TalkStore.setProcessing` (no `touchMeta`, no `updatedAt` change). -/
def setProcessingMeta (meta : TalkMeta) (processing : Bool) : TalkMeta :=
  { meta with processing := processing }

/-- The result of `deleteMessages`. -/
structure DeleteMessagesResult where
  remainingMessages : List TalkMessage
  pins : List String
  deleted : Nat
  remaining : Nat
deriving DecidableEq, Repr

/-- The trimmed, non-blank requested ids (`idSet` of `deleteMessages`). -/
def requestedIdSet (messageIds : List String) : List String :=
  (messageIds.filter (fun id => jsTrim id ≠ "")).map jsTrim

/-- `TalkStore.deleteMessages`: pure view over the parsed history and the
Talk's pins. -/
def deleteMessagesModel (history : List TalkMessage) (pins : List String)
    (messageIds : List String) : DeleteMessagesResult :=
  if messageIds.length = 0 then
    { remainingMessages := history, pins := pins, deleted := 0, remaining := history.length }
  else
    let idSet := requestedIdSet messageIds
    if idSet.length = 0 then
      { remainingMessages := history, pins := pins, deleted := 0, remaining := history.length }
    else
      let remainingMessages := history.filter (fun msg => !(idSet.contains msg.id))
      let deleted := history.length - remainingMessages.length
      let pins' := pins.filter (fun id => !(idSet.contains id))
      { remainingMessages := remainingMessages, pins := pins',
        deleted := deleted, remaining := remainingMessages.length }

/-- `Partial<Pick<TalkMeta, …>>` accepted by `updateTalk`. -/
structure UpdatePatch where
  topicTitle : Option String
  objective : Option String
  model : Option String
  agents : Option (List TalkAgent)
  directives : Option (List RawDirective)
  platformBindings : Option (List RawBinding)
  platformBehaviors : Option (List RawBehavior)
  toolMode : Option String
  executionMode : Option String
  filesystemAccess : Option String
  networkAccess : Option String
  toolsAllow : Option (List String)
  toolsDeny : Option (List String)
  googleAuthProfile : Option String
deriving Repr

/-- The field edits of `updateTalk` before its `touchMeta` call.  The bindings
branch re-normalizes current behaviors against the new bindings; a behaviors
patch is then normalized against the (possibly updated) bindings. -/
def applyUpdatePatch (meta : TalkMeta) (u : UpdatePatch) (now : Int)
    (fresh : Nat → String) : TalkMeta :=
  let bindings' :=
    match u.platformBindings with
    | some raws => normalizePlatformBindings raws now fresh
    | none => meta.platformBindings
  let behaviors1 :=
    match u.platformBindings with
    | some _ =>
      normalizePlatformBehaviors (meta.platformBehaviors.map PlatformBehavior.toRaw)
        bindings' now fresh
    | none => meta.platformBehaviors
  let behaviors' :=
    match u.platformBehaviors with
    | some raws => normalizePlatformBehaviors raws bindings' now fresh
    | none => behaviors1
  { meta with
    topicTitle := match u.topicTitle with | some v => some v | none => meta.topicTitle
    objective := match u.objective with | some v => some v | none => meta.objective
    model := match u.model with | some v => some v | none => meta.model
    agents := match u.agents with | some v => v | none => meta.agents
    directives :=
      match u.directives with
      | some raws => normalizeDirectives raws now fresh
      | none => meta.directives
    platformBindings := bindings'
    platformBehaviors := behaviors'
    toolMode := match u.toolMode with | some v => normalizeToolMode (some v) | none => meta.toolMode
    executionMode :=
      match u.executionMode with
      | some v => normalizeExecutionMode (some v)
      | none => meta.executionMode
    filesystemAccess :=
      match u.filesystemAccess with
      | some v => normalizeFilesystemAccess (some v)
      | none => meta.filesystemAccess
    networkAccess :=
      match u.networkAccess with
      | some v => normalizeNetworkAccess (some v)
      | none => meta.networkAccess
    toolsAllow := match u.toolsAllow with | some v => normalizeToolNames v | none => meta.toolsAllow
    toolsDeny := match u.toolsDeny with | some v => normalizeToolNames v | none => meta.toolsDeny
    googleAuthProfile :=
      match u.googleAuthProfile with
      | some v => normalizeGoogleAuthProfile (some v)
      | none => meta.googleAuthProfile }

/-- `Partial<Pick<TalkJob, …>>` accepted by `updateJob`. -/
structure JobPatch where
  active : Option Bool
  type : Option JobType
  schedule : Option String
  prompt : Option String
  output : Option RawJobOutput
  lastRunAt : Option Int
  lastStatus : Option String
deriving DecidableEq, Repr

/-- The in-place field edits of `updateJob` on the found job. -/
def applyJobPatch (job : TalkJob) (p : JobPatch) : TalkJob :=
  { job with
    active := match p.active with | some v => v | none => job.active
    type := match p.type with | some v => v | none => job.type
    schedule := match p.schedule with | some v => v | none => job.schedule
    prompt := match p.prompt with | some v => v | none => job.prompt
    output := match p.output with | some v => normalizeJobOutput (some v) | none => job.output
    lastRunAt := match p.lastRunAt with | some v => some v | none => job.lastRunAt
    lastStatus := match p.lastStatus with | some v => some v | none => job.lastStatus }

/-- Patch the first job with the given id (`jobs.find` + in-place mutation). -/
def updateFirstJob : List TalkJob → String → JobPatch → List TalkJob
  | [], _, _ => []
  | j :: rest, jobId, p =>
    if j.id == jobId then applyJobPatch j p :: rest
    else j :: updateFirstJob rest jobId p

/-- Remove the first job with the given id (`findIndex` + `splice`). -/
def eraseFirstJob : List TalkJob → String → List TalkJob
  | [], _ => []
  | j :: rest, jobId => if j.id == jobId then rest else j :: eraseFirstJob rest jobId

/-- Remove the first agent with the given name (`findIndex` + `splice`). -/
def eraseFirstAgent : List TalkAgent → String → List TalkAgent
  | [], _ => []
  | a :: rest, name => if a.name == name then rest else a :: eraseFirstAgent rest name

/-- The semantic Talk mutations of the store (everything that reaches
`touchMeta` without `skipVersionBump`).  `deleteMessagesOp` carries the parsed
history the store reads back from `history.jsonl`. -/
inductive MutationOp where
  | update (patch : UpdatePatch)
  | appendMessageOp (msg : TalkMessage)
  | deleteMessagesOp (messageIds : List String) (history : List TalkMessage)
  | pinAdd (messageId : String)
  | pinRemove (messageId : String)
  | jobAdd (schedule prompt : String) (jtype : Option JobType) (output : Option RawJobOutput)
  | jobUpdate (jobId : String) (patch : JobPatch)
  | jobDelete (jobId : String)
  | agentAdd (agent : TalkAgent)
  | agentRemove (agentName : String)
  | agentsSet (agents : List TalkAgent)
  | directivesSet (directives : List Directive)
  | bindingsSet (bindings : List RawBinding)
  | behaviorsSet (behaviors : List RawBehavior)

/-- One store mutation on a found Talk's metadata.  `none` means the source
does not reach `touchMeta` on that path (no-op pin/job edits, a delete that
removes nothing, or the thrown agent-not-found error); `uuid` is the change
id minted by `touchMeta`, `fresh` supplies entity uuids. -/
def applyMutationOp (op : MutationOp) (meta : TalkMeta) (now : Int)
    (uuid : String) (fresh : Nat → String) (modifiedBy : Option String) :
    Option TalkMeta :=
  match op with
  | MutationOp.update patch =>
    some (touchMeta (applyUpdatePatch meta patch now fresh)
      TalkMutationType.updated now uuid modifiedBy false)
  | MutationOp.appendMessageOp _ =>
    some (touchMeta meta TalkMutationType.messageAppended now uuid modifiedBy false)
  | MutationOp.deleteMessagesOp messageIds history =>
    let r := deleteMessagesModel history meta.pinnedMessageIds messageIds
    if 0 < r.deleted || r.pins.length ≠ meta.pinnedMessageIds.length then
      some (touchMeta { meta with pinnedMessageIds := r.pins }
        TalkMutationType.messagesDeleted now uuid modifiedBy false)
    else none
  | MutationOp.pinAdd messageId =>
    if meta.pinnedMessageIds.contains messageId then none
    else
      some (touchMeta { meta with pinnedMessageIds := meta.pinnedMessageIds ++ [messageId] }
        TalkMutationType.pinAdded now uuid modifiedBy false)
  | MutationOp.pinRemove messageId =>
    if meta.pinnedMessageIds.contains messageId then
      some (touchMeta { meta with pinnedMessageIds := meta.pinnedMessageIds.erase messageId }
        TalkMutationType.pinRemoved now uuid modifiedBy false)
    else none
  | MutationOp.jobAdd schedule prompt jtype output =>
    let job : TalkJob :=
      { id := fresh 0, type := jtype.getD JobType.recurring, schedule := schedule,
        prompt := prompt, output := normalizeJobOutput output, active := true,
        createdAt := now, lastRunAt := none, lastStatus := none }
    some (touchMeta { meta with jobs := meta.jobs ++ [job] }
      TalkMutationType.jobAdded now uuid modifiedBy false)
  | MutationOp.jobUpdate jobId patch =>
    if meta.jobs.any (fun j => j.id == jobId) then
      some (touchMeta { meta with jobs := updateFirstJob meta.jobs jobId patch }
        TalkMutationType.jobUpdated now uuid modifiedBy false)
    else none
  | MutationOp.jobDelete jobId =>
    if meta.jobs.any (fun j => j.id == jobId) then
      some (touchMeta { meta with jobs := eraseFirstJob meta.jobs jobId }
        TalkMutationType.jobDeleted now uuid modifiedBy false)
    else none
  | MutationOp.agentAdd agent =>
    some (touchMeta { meta with agents := meta.agents ++ [agent] }
      TalkMutationType.agentAdded now uuid modifiedBy false)
  | MutationOp.agentRemove agentName =>
    if meta.agents.any (fun a => a.name == agentName) then
      some (touchMeta { meta with agents := eraseFirstAgent meta.agents agentName }
        TalkMutationType.agentRemoved now uuid modifiedBy false)
    else none
  | MutationOp.agentsSet agents =>
    some (touchMeta { meta with agents := agents }
      TalkMutationType.agentsSet now uuid modifiedBy false)
  | MutationOp.directivesSet directives =>
    some (touchMeta { meta with directives := directives }
      TalkMutationType.directivesSet now uuid modifiedBy false)
  | MutationOp.bindingsSet raws =>
    let bindings' := normalizePlatformBindings raws now fresh
    let behaviors' :=
      normalizePlatformBehaviors (meta.platformBehaviors.map PlatformBehavior.toRaw)
        bindings' now fresh
    some (touchMeta { meta with platformBindings := bindings', platformBehaviors := behaviors' }
      TalkMutationType.bindingsSet now uuid modifiedBy false)
  | MutationOp.behaviorsSet raws =>
    some (touchMeta
      { meta with
        platformBehaviors := normalizePlatformBehaviors raws meta.platformBindings now fresh }
      TalkMutationType.behaviorsSet now uuid modifiedBy false)

/-! ## Metadata persistence (`TalkStore.persistMeta`) -/

/-- File-system operations the store issues. -/
inductive FsOp where
  | mkdirRec (path : String)
  | writeFile (path : String) (content : String)
  | appendFile (path : String) (content : String)
  | rename (src dst : String)
deriving DecidableEq, Repr

/-- Stands for `JSON.stringify(meta, null, 2)`.  No claim depends on the
rendering, only on which path the serialized bytes are written to. -/
def serializeTalkMeta (meta : TalkMeta) : String :=
  "\x7b \"id\": \"" ++ meta.id ++ "\", \"talkVersion\": " ++ toString meta.talkVersion ++
    ", \"changeId\": \"" ++ meta.changeId ++ "\" \x7d"

def talkDirPath (talksDir : String) (id : String) : String :=
  talksDir ++ "/" ++ id

def talkJsonPath (talksDir : String) (id : String) : String :=
  talkDirPath talksDir id ++ "/talk.json"

/-- `TalkStore.persistMeta` as its trace of file-system operations:
`mkdir -p` on the Talk directory, then a direct `writeFile` of `talk.json`. -/
def persistMetaOps (talksDir : String) (meta : TalkMeta) : List FsOp :=
  if !isValidId meta.id then []
  else
    [FsOp.mkdirRec (talkDirPath talksDir meta.id),
     FsOp.writeFile (talkJsonPath talksDir meta.id) (serializeTalkMeta meta)]

/-- Does the trace write the given path through a temp file committed by
`rename`?  (The pattern `reconcileSlackRoutingForTalks` uses for the host
config file.) -/
def renamesOnto (ops : List FsOp) (p : String) : Bool :=
  ops.any (fun op => match op with | FsOp.rename _ dst => dst = p | _ => false)

/-- Does the trace write the given path in place? -/
def writesDirectly (ops : List FsOp) (p : String) : Bool :=
  ops.any (fun op => match op with | FsOp.writeFile q _ => q = p | _ => false)

/-- The claim that every metadata rewrite is temp-file-then-rename with the
rename as commit point and never an in-place write of `talk.json`. -/
def metaPersistenceIsTempThenRename : Prop :=
  ∀ (talksDir : String) (meta : TalkMeta), isValidId meta.id = true →
    renamesOnto (persistMetaOps talksDir meta) (talkJsonPath talksDir meta.id) = true ∧
    writesDirectly (persistMetaOps talksDir meta) (talkJsonPath talksDir meta.id) = false

/-! ## Spec-side scoring tables for the refinement claim about
`scoreSlackBinding` -/

/-- The scoring table in the claim's order: the exact-channel equalities
first, the wildcard case after the name cases, and `95` only for the
normalized outbound target itself.  (Written from the claim's words, to be
compared against `scoreSlackBinding`.) -/
def scoreSlackBindingClaimOrder (binding : PlatformBinding)
    (event : SlackIngressEvent) : Int :=
  if jsLower (jsTrim binding.platform) ≠ "slack" then -1
  else if !canWrite (some binding.permission) then -1
  else
    let bindingAccountId : Option String :=
      match binding.accountId with
      | some a => if jsTrim a ≠ "" then some (normalizeAccountId (some a)) else none
      | none => none
    let explicitEventAccountId : Option String :=
      match event.accountId with
      | some a => if jsTrim a ≠ "" then some (normalizeAccountId (some a)) else none
      | none => none
    if bindingAccountId.isSome && explicitEventAccountId.isSome &&
        bindingAccountId ≠ explicitEventAccountId then -1
    else
      let scope := normalizeScope binding.scope
      let channelId := jsLower (jsTrim event.channelId)
      let channelName := normalizeChannelName event.channelName
      let outboundTarget := normalizeTarget event.outboundTarget
      if scope = channelId || scope = "channel:" ++ channelId ||
          scope = "user:" ++ channelId || scope = "slack:" ++ channelId then 100
      else if (match outboundTarget with
               | some t => decide (scope = t)
               | none => false) then 95
      else if (match channelName with
               | some cn => scope = "#" ++ cn || scope = cn
               | none => false) then 90
      else if (match channelName with
               | some cn => jsEndsWith scope (" #" ++ cn)
               | none => false) then 80
      else if scope = "*" || scope = "all" || scope = "slack:*" then 10
      else -1

/-- The scoring table as the amended claim orders it: exclusions first, then
the wildcard case, then the exact-channel equalities, with `95` also for the
`slack:`-prefixed outbound target.  (Written from the amended claim's words,
to be compared against `scoreSlackBinding`.) -/
def scoreSlackBindingAmendedOrder (binding : PlatformBinding)
    (event : SlackIngressEvent) : Int :=
  if jsLower (jsTrim binding.platform) ≠ "slack" then -1
  else if !canWrite (some binding.permission) then -1
  else
    let bindingAccountId : Option String :=
      match binding.accountId with
      | some a => if jsTrim a ≠ "" then some (normalizeAccountId (some a)) else none
      | none => none
    let explicitEventAccountId : Option String :=
      match event.accountId with
      | some a => if jsTrim a ≠ "" then some (normalizeAccountId (some a)) else none
      | none => none
    if bindingAccountId.isSome && explicitEventAccountId.isSome &&
        bindingAccountId ≠ explicitEventAccountId then -1
    else
      let scope := normalizeScope binding.scope
      if scope = "" then -1
      else
        let channelId := jsLower (jsTrim event.channelId)
        let channelName := normalizeChannelName event.channelName
        let outboundTarget := normalizeTarget event.outboundTarget
        if scope = "*" || scope = "all" || scope = "slack:*" then 10
        else if scope = channelId || scope = "channel:" ++ channelId ||
            scope = "user:" ++ channelId || scope = "slack:" ++ channelId then 100
        else if (match outboundTarget with
                 | some t => scope = t || scope = "slack:" ++ t
                 | none => false) then 95
        else if (match channelName with
                 | some cn => scope = "#" ++ cn || scope = cn
                 | none => false) then 90
        else if (match channelName with
                 | some cn => jsEndsWith scope (" #" ++ cn)
                 | none => false) then 80
        else -1

/-- A Talk's score for an event: the maximum of its bindings' scores (with
`-1` for a talk with no scoring binding). -/
def talkScore (talk : TalkMeta) (event : SlackIngressEvent) : Int :=
  (talk.platformBindings.map (fun b => scoreSlackBinding b event)).foldl max (-1)

/-- The best score over all Talks. -/
def bestTalkScore (talks : List TalkMeta) (event : SlackIngressEvent) : Int :=
  (talks.map (fun t => talkScore t event)).foldl max (-1)

/-- The Talks attaining the (non-negative) best score, in store order. -/
def topTalks (talks : List TalkMeta) (event : SlackIngressEvent) : List TalkMeta :=
  talks.filter (fun t =>
    decide (0 ≤ talkScore t event) && decide (talkScore t event = bestTalkScore talks event))

/-- The candidate list `resolveOwnerTalk` accumulates, described directly:
the Talks whose (non-negative) score attains `m`, each paired with its
argmax binding. -/
def candidateSpec (talks : List TalkMeta) (event : SlackIngressEvent) (m : Int) :
    List (TalkMeta × PlatformBinding) :=
  talks.filterMap (fun t =>
    match (talkBestBinding t.platformBindings event).2 with
    | some b =>
      if 0 ≤ (talkBestBinding t.platformBindings event).1 ∧
          (talkBestBinding t.platformBindings event).1 = m then some (t, b) else none
    | none => none)

/-- `(talks.map talkScore).foldl max (-1)` over a tail, for the loop
invariant. -/
def bestOf (talks : List TalkMeta) (event : SlackIngressEvent) : Int :=
  (talks.map (fun t => talkScore t event)).foldl max (-1)

/-- Every dedup entry records a `pass` decision — the invariant of the
module-local `seenEvents` table (only `routeSlackIngressEvent` writes it, and
it only ever stores `pass`). -/
def seenAllPass (seen : List (String × SeenDecision)) : Prop :=
  ∀ kv ∈ seen, kv.2.decision = Decision.pass

/-! ## Concrete sample inputs for witnesses and counterexamples -/

def sampleBinding : PlatformBinding :=
  { id := "b1", platform := "slack", scope := "channel:C123", accountId := none,
    displayScope := none, permission := "read+write", createdAt := 0 }

def sampleTalk : TalkMeta :=
  { id := "talk-1", talkVersion := 1, changeId := "c0", lastModifiedAt := 0,
    lastModifiedBy := none, topicTitle := none, objective := none, model := none,
    googleAuthProfile := none, agents := [], pinnedMessageIds := ["m1", "m3"],
    directives := [], platformBindings := [sampleBinding], platformBehaviors := [],
    jobs := [], executionMode := ExecutionMode.openclaw,
    filesystemAccess := FilesystemAccess.fullHostAccess,
    networkAccess := NetworkAccess.fullOutbound, toolMode := ToolMode.auto,
    toolsAllow := [], toolsDeny := [], processing := false, createdAt := 0,
    updatedAt := 0 }

def sampleEvent : SlackIngressEvent :=
  { eventId := "e1", accountId := none, channelId := "C123", channelName := none,
    threadTs := none, messageTs := none, userId := none, userName := none,
    outboundTarget := none, text := "hello" }

/-- A wildcard binding whose scope is also literally the event's channel id. -/
def wildcardBinding : PlatformBinding :=
  { id := "b2", platform := "slack", scope := "all", accountId := none,
    displayScope := none, permission := "read+write", createdAt := 0 }

def channelAllEvent : SlackIngressEvent :=
  { eventId := "e2", accountId := none, channelId := "all", channelName := none,
    threadTs := none, messageTs := none, userId := none, userName := none,
    outboundTarget := none, text := "hello" }

def deathSpiralObservation : ToolAffinityObservation :=
  { timestamp := 0, intent := "study",
    availableTools := ["state_append_event", "state_read_summary"],
    usedTools := [], toolsOffered := 4, model := "kimi-k2.5",
    source := ObservationSource.slackIngress }

def deathSpiralPolicy : List String :=
  ["state_append_event", "state_read_summary", "google_docs_append", "web_search"]

def deathSpiralBaseline : List String :=
  ["state_append_event", "state_read_summary"]

def headersWithAgentId : HeaderMap :=
  fun name => if name = agentIdHeader then some "a1" else none

def headersWithAgentKey : HeaderMap :=
  fun name => if name = sessionKeyHeader then some "agent:main:foo" else none

def headersWithTalkKey : HeaderMap :=
  fun name =>
    if name = sessionKeyHeader then some "talk:clawtalk:talk:abc:slack:channel:C123"
    else none

def headersWithJobKey : HeaderMap :=
  fun name => if name = sessionKeyHeader then some "job:clawtalk:foo" else none

def sampleHistory : List TalkMessage :=
  [{ id := "m1", role := MessageRole.user, content := "a", timestamp := 0 },
   { id := "m2", role := MessageRole.assistant, content := "b", timestamp := 1 },
   { id := "m3", role := MessageRole.user, content := "c", timestamp := 2 }]

def sampleBinding2 : PlatformBinding :=
  { sampleBinding with id := "b9" }

/-- A second Talk bound to the same channel, for the ambiguity witness. -/
def sampleTalk2 : TalkMeta :=
  { sampleTalk with id := "talk-2", platformBindings := [sampleBinding2] }

/-- A binding whose scope is the `slack:`-prefixed outbound target. -/
def slackTargetBinding : PlatformBinding :=
  { id := "b3", platform := "slack", scope := "slack:ops-room", accountId := none,
    displayScope := none, permission := "read+write", createdAt := 0 }

/-- An event whose normalized outbound target matches `slackTargetBinding`
only through the `slack:` prefix. -/
def targetEvent : SlackIngressEvent :=
  { eventId := "e3", accountId := none, channelId := "C999", channelName := none,
    threadTs := none, messageTs := none, userId := none, userName := none,
    outboundTarget := some "ops-room", text := "hello" }

def sampleSeenEntry : SeenDecision :=
  { ts := 0, decision := Decision.pass, talkId := some "talk-1",
    reason := some "delegated-to-agent" }

def sampleSeenState : IngressState :=
  { seen := [("e1", sampleSeenEntry)], counters := [] }

/-! # Theorems -/

/-- C3: the claim states `computeAffinityTimeout(learned, k, base=240000,
min=120000) = min(240000, max(120000, 60000+20000k))`, but the source takes
no `minTimeoutMs` and for `k = 0` returns `60000`, not the claimed `120000`
(the repository's own test expects the floor).  This theorem evaluates the
code at the failing input and exhibits the divergence from the claimed
formula. -/
theorem computeAffinityTimeout_no_min_floor :
    computeAffinityTimeout AffinityPhase.learned 0 240000 = 60000 ∧
    computeAffinityTimeout AffinityPhase.learned 0 240000 ≠
      min 240000 (max 120000 (60000 + 0 * 20000)) ∧
    computeAffinityTimeout AffinityPhase.warmup 0 240000 = 240000 ∧
    computeAffinityTimeout AffinityPhase.exploration 0 240000 = 240000 := by
  refine ⟨rfl, ?_, rfl, rfl⟩
  decide

/-- C2: with exactly 1 recorded observation whose `usedTools` is empty, a
non-exploration roll and the policy-allowed set of the death-spiral test,
the source's `selectTools` (which accepts no cold-start baseline at all)
lands in the `learned` phase and collapses to `selectedTools = ∅` — the
exact death spiral the claim (and the repository's own regression test)
rules out.  The non-empty baseline `deathSpiralBaseline` is shown distinct
from the selection. -/
theorem selectTools_death_spiral_at_one_observation :
    (selectTools "study" deathSpiralPolicy
        (some (computeSnapshot "talk-1" [deathSpiralObservation] 0))
        (mkRat 1 2)).phase = AffinityPhase.learned ∧
    (selectTools "study" deathSpiralPolicy
        (some (computeSnapshot "talk-1" [deathSpiralObservation] 0))
        (mkRat 1 2)).selectedTools = [] ∧
    deathSpiralBaseline ≠ [] ∧
    ¬ (mkRat 1 2 < mkRat 1 EXPLORATION_RATE) := by
  refine ⟨by decide, by decide, by decide, by decide⟩

/-- C4 counterexample: `persistMeta` does not write `talk.json` through a
temp-file-then-rename commit — at a concrete valid Talk the trace contains
no rename onto `talk.json` and does contain a direct in-place write. -/
theorem persistMeta_not_temp_then_rename : ¬ metaPersistenceIsTempThenRename := by
  intro h
  have hc := h "talks" sampleTalk (by decide)
  have : renamesOnto (persistMetaOps "talks" sampleTalk)
      (talkJsonPath "talks" sampleTalk.id) = false := by decide
  rw [this] at hc
  exact Bool.false_ne_true hc.1

/-- C4 (amended): every metadata mutation rewrites `talk.json` by a single
direct `writeFile` of the serialized metadata into the Talk's directory (no
temp file, no rename); for an invalid Talk id nothing is written. -/
theorem persistMeta_writes_in_place :
    ∀ (talksDir : String) (meta : TalkMeta),
      (isValidId meta.id = true →
        persistMetaOps talksDir meta =
          [FsOp.mkdirRec (talkDirPath talksDir meta.id),
           FsOp.writeFile (talkJsonPath talksDir meta.id) (serializeTalkMeta meta)]) ∧
      (isValidId meta.id = false → persistMetaOps talksDir meta = []) := by
  intro talksDir meta
  constructor
  · intro hvalid
    simp [persistMetaOps, hvalid]
  · intro hinvalid
    simp [persistMetaOps, hinvalid]

/-- Witness for C4's amended theorem at a concrete Talk. -/
theorem persistMeta_writes_in_place_witness :
    persistMetaOps "talks" sampleTalk =
      [FsOp.mkdirRec (talkDirPath "talks" sampleTalk.id),
       FsOp.writeFile (talkJsonPath "talks" sampleTalk.id) (serializeTalkMeta sampleTalk)] :=
  (persistMeta_writes_in_place "talks" sampleTalk).1 (by decide)

/-- C9: after `deleteMessages`, no surviving pinned id refers to a removed
message (every pinned id that matches a requested id is removed together
with the history rewrite), and the returned counts are the number of deleted
and of remaining messages. -/
theorem deleteMessages_no_dangling_pins :
    ∀ (history : List TalkMessage) (pins : List String) (messageIds : List String),
      (∀ pid, pid ∈ (deleteMessagesModel history pins messageIds).pins →
        ∀ m, m ∈ history → m.id = pid →
          m ∈ (deleteMessagesModel history pins messageIds).remainingMessages) ∧
      (∀ pid, pid ∈ pins → pid ∈ requestedIdSet messageIds →
        pid ∉ (deleteMessagesModel history pins messageIds).pins) ∧
      (deleteMessagesModel history pins messageIds).deleted =
        history.length - (deleteMessagesModel history pins messageIds).remainingMessages.length ∧
      (deleteMessagesModel history pins messageIds).remaining =
        (deleteMessagesModel history pins messageIds).remainingMessages.length := by
  intro history pins messageIds
  by_cases h0 : messageIds.length = 0
  · have heq : deleteMessagesModel history pins messageIds =
        { remainingMessages := history, pins := pins, deleted := 0,
          remaining := history.length } := by
      simp [deleteMessagesModel, h0]
    rw [heq]
    have hnil : messageIds = [] := List.length_eq_zero.mp h0
    subst hnil
    refine ⟨fun pid _ m hm _ => hm, ?_, by simp, rfl⟩
    intro pid _ hmem
    simp [requestedIdSet] at hmem
  · by_cases h1 : (requestedIdSet messageIds).length = 0
    · have heq : deleteMessagesModel history pins messageIds =
          { remainingMessages := history, pins := pins, deleted := 0,
            remaining := history.length } := by
        simp [deleteMessagesModel, h0, h1]
      rw [heq]
      have hnil : requestedIdSet messageIds = [] := List.length_eq_zero.mp h1
      refine ⟨fun pid _ m hm _ => hm, ?_, by simp, rfl⟩
      intro pid _ hmem
      rw [hnil] at hmem
      simp at hmem
    · have heq : deleteMessagesModel history pins messageIds =
          { remainingMessages :=
              history.filter (fun msg => !((requestedIdSet messageIds).contains msg.id))
            pins := pins.filter (fun id => !((requestedIdSet messageIds).contains id))
            deleted := history.length -
              (history.filter (fun msg => !((requestedIdSet messageIds).contains msg.id))).length
            remaining :=
              (history.filter (fun msg => !((requestedIdSet messageIds).contains msg.id))).length } := by
        simp [deleteMessagesModel, h0, h1]
      rw [heq]
      refine ⟨?_, ?_, rfl, rfl⟩
      · intro pid hpid m hm hid
        simp only [List.mem_filter] at hpid ⊢
        refine ⟨hm, ?_⟩
        rw [hid]
        exact hpid.2
      · intro pid _ hmem hcontra
        simp only [List.mem_filter] at hcontra
        have hc : (requestedIdSet messageIds).contains pid = true :=
          List.elem_iff.mpr hmem
        rw [hc] at hcontra
        simp at hcontra

/-- Helper: with no Behavior row for the binding, the gate returns
`handle = true` with the computed intent and no checks applied. -/
theorem shouldHandle_of_no_behavior_row (meta : TalkMeta) (bindingId text : String)
    (userId userName : Option String)
    (hnone : meta.platformBehaviors.find?
      (fun entry => entry.platformBindingId == bindingId) = none) :
    shouldHandleViaBehavior meta bindingId text userId userName =
      { handle := true, reason := none, behavior := none,
        intent := some (resolveMessageIntent text) } := by
  unfold shouldHandleViaBehavior resolveBehaviorForBinding
  rw [hnone]

/-- C10: when the matched binding has no Behavior row, the behavior gate
passes unconditionally (the sender / response-mode / trigger-policy checks
are not consulted), the intent is still computed from the text, and the
event is treated as handled (delegated) by the ownership inspection. -/
theorem missing_behavior_row_handles_unconditionally :
    (∀ (meta : TalkMeta) (bindingId text : String) (userId userName : Option String),
      meta.platformBehaviors.find?
        (fun entry => entry.platformBindingId == bindingId) = none →
      shouldHandleViaBehavior meta bindingId text userId userName =
        { handle := true, reason := none, behavior := none,
          intent := some (resolveMessageIntent text) }) ∧
    (∀ (event : SlackIngressEvent) (store : List TalkMeta) (tid : String)
        (b : PlatformBinding) (meta : TalkMeta),
      (resolveOwnerTalk store { event with text := "" }).talkId = some tid →
      (resolveOwnerTalk store { event with text := "" }).binding = some b →
      getTalk store tid = some meta →
      meta.platformBehaviors.find?
        (fun entry => entry.platformBindingId == b.id) = none →
      (inspectSlackOwnership event store).decision = Decision.handled) := by
  constructor
  · exact shouldHandle_of_no_behavior_row
  · intro event store tid b meta h1 h2 h3 h4
    unfold inspectSlackOwnership
    simp only [h1, h2, h3,
      shouldHandle_of_no_behavior_row meta b.id event.text event.userId event.userName h4]
    simp

/-- Witness for C10: a Talk whose matched binding carries no Behavior row
handles the event with the intent computed. -/
theorem missing_behavior_row_witness :
    shouldHandleViaBehavior sampleTalk "b1" "hello" none none =
      { handle := true, reason := none, behavior := none,
        intent := some (resolveMessageIntent "hello") } ∧
    (inspectSlackOwnership sampleEvent [sampleTalk]).decision = Decision.handled :=
  ⟨missing_behavior_row_handles_unconditionally.1 sampleTalk "b1" "hello" none none
      (by decide),
   missing_behavior_row_handles_unconditionally.2 sampleEvent [sampleTalk] "talk-1"
      sampleBinding sampleTalk (by decide) (by decide) (by decide) (by decide)⟩

/-- Helper: the source's session-key guard condition coincides with "the
trimmed session key starts with `agent:`". -/
theorem session_condition_eq (headers : HeaderMap) :
    (hasValue (headers sessionKeyHeader) &&
      jsStartsWith (jsTrim ((headers sessionKeyHeader).getD "")) "agent:") =
    sessionKeyAgentPrefixed headers := by
  cases hsk : headers sessionKeyHeader with
  | none => simp [hasValue, sessionKeyAgentPrefixed, hsk]
  | some s =>
    simp only [hasValue, sessionKeyAgentPrefixed, hsk, Option.getD]
    by_cases h : jsTrim s = ""
    · rw [h]
      simp [h]
      decide
    · simp [h]

/-- C5: `assertRoutingHeaders` throws `ROUTING_GUARD_FORBIDDEN_AGENT_HEADER`
iff the mode is `full_control` and the agent-id header is set non-blank;
it throws `ROUTING_GUARD_FORBIDDEN_SESSION_KEY` iff the mode is
`full_control`, the agent-id header is blank/absent and the (trimmed)
session key starts with `agent:`; it returns without throwing in every
other case; every thrown error carries the flow and execution mode. -/
theorem assertRoutingHeaders_characterization :
    ∀ (flow : RoutingFlow) (mode : ExecutionMode) (headers : HeaderMap),
      ((∃ e, assertRoutingHeaders flow mode headers = Except.error e ∧
          e.code = RoutingGuardCode.forbiddenAgentHeader) ↔
        (mode = ExecutionMode.fullControl ∧ hasValue (headers agentIdHeader) = true)) ∧
      ((∃ e, assertRoutingHeaders flow mode headers = Except.error e ∧
          e.code = RoutingGuardCode.forbiddenSessionKey) ↔
        (mode = ExecutionMode.fullControl ∧ hasValue (headers agentIdHeader) = false ∧
          sessionKeyAgentPrefixed headers = true)) ∧
      ((∃ u, assertRoutingHeaders flow mode headers = Except.ok u) ↔
        ¬ (mode = ExecutionMode.fullControl ∧
            (hasValue (headers agentIdHeader) = true ∨
              sessionKeyAgentPrefixed headers = true))) ∧
      (∀ e, assertRoutingHeaders flow mode headers = Except.error e →
        e.flow = flow ∧ e.executionMode = mode) := by
  intro flow mode headers
  cases mode with
  | openclaw =>
    have h : assertRoutingHeaders flow ExecutionMode.openclaw headers = Except.ok () := by
      unfold assertRoutingHeaders
      simp
    refine ⟨?_, ?_, ?_, ?_⟩ <;> simp [h]
  | fullControl =>
    by_cases hA : hasValue (headers agentIdHeader) = true
    · have h : assertRoutingHeaders flow ExecutionMode.fullControl headers =
          Except.error
            { code := RoutingGuardCode.forbiddenAgentHeader, flow := flow,
              executionMode := ExecutionMode.fullControl,
              message := "routing_guard_forbidden_agent_header" } := by
        unfold assertRoutingHeaders
        simp [hA]
      refine ⟨?_, ?_, ?_, ?_⟩
      · simp [h, hA]
      · constructor
        · rintro ⟨e, he, hc⟩
          rw [h] at he
          cases he
          simp at hc
        · rintro ⟨_, hA', _⟩
          rw [hA] at hA'
          cases hA'
      · simp [h, hA]
      · intro e he
        rw [h] at he
        cases he
        exact ⟨rfl, rfl⟩
    · have hA' : hasValue (headers agentIdHeader) = false := by
        simpa using hA
      by_cases hS : sessionKeyAgentPrefixed headers = true
      · have h : assertRoutingHeaders flow ExecutionMode.fullControl headers =
            Except.error
              { code := RoutingGuardCode.forbiddenSessionKey, flow := flow,
                executionMode := ExecutionMode.fullControl,
                message := "routing_guard_forbidden_session_key" } := by
          unfold assertRoutingHeaders
          simp [hA', session_condition_eq, hS]
        refine ⟨?_, ?_, ?_, ?_⟩
        · constructor
          · rintro ⟨e, he, hc⟩
            rw [h] at he
            cases he
            simp at hc
          · rintro ⟨_, hA2⟩
            rw [hA'] at hA2
            cases hA2
        · simp [h, hA', hS]
        · simp [h, hA', hS]
        · intro e he
          rw [h] at he
          cases he
          exact ⟨rfl, rfl⟩
      · have hS' : sessionKeyAgentPrefixed headers = false := by
          simpa using hS
        have h : assertRoutingHeaders flow ExecutionMode.fullControl headers =
            Except.ok () := by
          unfold assertRoutingHeaders
          simp [hA', session_condition_eq, hS']
        refine ⟨?_, ?_, ?_, ?_⟩ <;> simp [h, hA', hS']

/-- Witness for C5: under `full_control` a set agent-id header throws the
agent-header code, an `agent:`-prefixed session key throws the session-key
code, and a `talk:`/`job:` session key or `openclaw` mode pass. -/
theorem assertRoutingHeaders_witness :
    (∃ e, assertRoutingHeaders RoutingFlow.talkChat ExecutionMode.fullControl
        headersWithAgentId = Except.error e ∧
      e.code = RoutingGuardCode.forbiddenAgentHeader) ∧
    (∃ e, assertRoutingHeaders RoutingFlow.slackIngress ExecutionMode.fullControl
        headersWithAgentKey = Except.error e ∧
      e.code = RoutingGuardCode.forbiddenSessionKey) ∧
    (∃ u, assertRoutingHeaders RoutingFlow.talkChat ExecutionMode.fullControl
        headersWithTalkKey = Except.ok u) ∧
    (∃ u, assertRoutingHeaders RoutingFlow.jobScheduler ExecutionMode.fullControl
        headersWithJobKey = Except.ok u) ∧
    (∃ u, assertRoutingHeaders RoutingFlow.talkChat ExecutionMode.openclaw
        headersWithAgentKey = Except.ok u) :=
  ⟨(assertRoutingHeaders_characterization RoutingFlow.talkChat ExecutionMode.fullControl
      headersWithAgentId).1.mpr ⟨rfl, by decide⟩,
   (assertRoutingHeaders_characterization RoutingFlow.slackIngress ExecutionMode.fullControl
      headersWithAgentKey).2.1.mpr ⟨rfl, by decide, by decide⟩,
   (assertRoutingHeaders_characterization RoutingFlow.talkChat ExecutionMode.fullControl
      headersWithTalkKey).2.2.1.mpr (by decide),
   (assertRoutingHeaders_characterization RoutingFlow.jobScheduler ExecutionMode.fullControl
      headersWithJobKey).2.2.1.mpr (by decide),
   (assertRoutingHeaders_characterization RoutingFlow.talkChat ExecutionMode.openclaw
      headersWithAgentKey).2.2.1.mpr (by decide)⟩

/-- Helper: `touchMeta` without `skipVersionBump` bumps the version to
`max 1 (v+1)` and refreshes the concurrency triple. -/
theorem touchMeta_bumps (meta : TalkMeta) (t : TalkMutationType) (now : Int)
    (uuid : String) (mb : Option String) :
    (touchMeta meta t now uuid mb false).talkVersion = max 1 (meta.talkVersion + 1) ∧
    (touchMeta meta t now uuid mb false).changeId = uuid ∧
    (touchMeta meta t now uuid mb false).lastModifiedAt = now ∧
    (touchMeta meta t now uuid mb false).lastModifiedBy =
      some (modifiedByOrGateway mb) := by
  simp [touchMeta]

/-- C8: every semantic mutation that goes through (update, message
append/delete, pin add/remove, job add/update/delete, agents / directives /
bindings / behaviors set) strictly increases `talkVersion` (keeping it ≥ 1)
and refreshes `changeId`, `lastModifiedAt` and `lastModifiedBy`, while
`setProcessing` changes only the `processing` flag and leaves the
concurrency triple and `updatedAt` untouched. -/
theorem talkVersion_strictly_increases :
    (∀ (op : MutationOp) (meta : TalkMeta) (now : Int) (uuid : String)
        (fresh : Nat → String) (modifiedBy : Option String) (meta' : TalkMeta),
      applyMutationOp op meta now uuid fresh modifiedBy = some meta' →
        1 ≤ meta'.talkVersion ∧
        meta.talkVersion < meta'.talkVersion ∧
        meta'.changeId = uuid ∧
        meta'.lastModifiedAt = now ∧
        meta'.lastModifiedBy = some (modifiedByOrGateway modifiedBy)) ∧
    (∀ (meta : TalkMeta) (b : Bool),
      (setProcessingMeta meta b).processing = b ∧
      (setProcessingMeta meta b).talkVersion = meta.talkVersion ∧
      (setProcessingMeta meta b).changeId = meta.changeId ∧
      (setProcessingMeta meta b).lastModifiedAt = meta.lastModifiedAt ∧
      (setProcessingMeta meta b).lastModifiedBy = meta.lastModifiedBy ∧
      (setProcessingMeta meta b).updatedAt = meta.updatedAt ∧
      (setProcessingMeta meta b).id = meta.id ∧
      (setProcessingMeta meta b).pinnedMessageIds = meta.pinnedMessageIds ∧
      (setProcessingMeta meta b).jobs = meta.jobs) := by
  constructor
  · intro op meta now uuid fresh mb meta' h
    have key : ∀ base : TalkMeta, base.talkVersion = meta.talkVersion →
        ∀ t : TalkMutationType, touchMeta base t now uuid mb false = meta' →
          1 ≤ meta'.talkVersion ∧
          meta.talkVersion < meta'.talkVersion ∧
          meta'.changeId = uuid ∧
          meta'.lastModifiedAt = now ∧
          meta'.lastModifiedBy = some (modifiedByOrGateway mb) := by
      intro base hbase t ht
      obtain ⟨hv, hc, hl, hm⟩ := touchMeta_bumps base t now uuid mb
      rw [ht] at hv hc hl hm
      rw [hbase] at hv
      refine ⟨?_, ?_, hc, hl, hm⟩ <;> omega
    cases op <;> simp only [applyMutationOp] at h <;>
      (try split at h) <;>
      first
        | exact Option.noConfusion h
        | (simp only [Option.some.injEq] at h; refine key _ ?_ _ h; rfl)
  · intro meta b
    refine ⟨rfl, rfl, rfl, rfl, rfl, rfl, rfl, rfl, rfl⟩

/-- Witness for C8: a concrete pin-add bumps the version; a concrete
`setProcessing` leaves it unchanged. -/
theorem talkVersion_strictly_increases_witness :
    sampleTalk.talkVersion <
      ((applyMutationOp (MutationOp.pinAdd "m9") sampleTalk 5 "u1" (fun _ => "u")
          none).getD sampleTalk).talkVersion ∧
    (setProcessingMeta sampleTalk true).talkVersion = sampleTalk.talkVersion :=
  ⟨(talkVersion_strictly_increases.1 (MutationOp.pinAdd "m9") sampleTalk 5 "u1"
      (fun _ => "u") none _ rfl).2.1,
   (talkVersion_strictly_increases.2 sampleTalk true).2.1⟩

/-- Helper: a dedup entry that is inside the TTL survives the prune and is
still found first. -/
theorem findSeen_prune {seen : List (String × SeenDecision)} {k : String}
    {d : SeenDecision} {now : Int}
    (hfind : findSeen seen k = some d)
    (httl : ¬ (EVENT_TTL_MS < now - d.ts)) :
    findSeen (pruneSeenEvents now seen) k = some d := by
  induction seen with
  | nil => simp [findSeen] at hfind
  | cons hd tl ih =>
    simp only [findSeen, List.find?_cons] at hfind
    cases hbeq : (hd.1 == k) with
    | true =>
      rw [hbeq] at hfind
      have hd2 : hd.2 = d := by simpa using hfind
      have hkeep : (!decide (EVENT_TTL_MS < now - hd.2.ts)) = true := by
        rw [hd2]
        simpa using httl
      simp only [pruneSeenEvents, List.filter_cons, hkeep, if_true, findSeen,
        List.find?_cons, hbeq]
      simpa using hd2
    | false =>
      rw [hbeq] at hfind
      have htl : findSeen tl k = some d := hfind
      have hrec := ih htl
      by_cases hkeep : (!decide (EVENT_TTL_MS < now - hd.2.ts)) = true
      · simp only [pruneSeenEvents, List.filter_cons, hkeep, if_true, findSeen,
          List.find?_cons, hbeq]
        simpa [pruneSeenEvents, findSeen] using hrec
      · have hdrop : (!decide (EVENT_TTL_MS < now - hd.2.ts)) = false :=
          Bool.eq_false_iff.mpr hkeep
        simp only [pruneSeenEvents, List.filter_cons, hdrop, if_false]
        simpa [pruneSeenEvents, findSeen] using hrec

/-- Helper: a found dedup entry is the value of some table element. -/
theorem findSeen_mem {l : List (String × SeenDecision)} {k : String}
    {d : SeenDecision} (h : findSeen l k = some d) : ∃ kv ∈ l, kv.2 = d := by
  unfold findSeen at h
  cases hf : l.find? (fun kv => kv.1 == k) with
  | none => rw [hf] at h; cases h
  | some kv =>
    rw [hf] at h
    cases h
    exact ⟨kv, List.mem_of_find?_eq_some hf, rfl⟩

/-- Helper: an element of a `setSeen` result is an old element or the new
pair. -/
theorem mem_setSeen {l : List (String × SeenDecision)} {k : String}
    {v : SeenDecision} {kv : String × SeenDecision}
    (h : kv ∈ setSeen l k v) : kv ∈ l ∨ kv = (k, v) := by
  unfold setSeen at h
  split at h
  · rcases List.mem_map.1 h with ⟨kv0, hmem, heq⟩
    by_cases hk : kv0.1 == k
    · rw [if_pos hk] at heq
      right
      exact heq.symm
    · rw [if_neg hk] at heq
      left
      rw [← heq]
      exact hmem
  · rcases List.mem_append.1 h with h1 | h1
    · exact Or.inl h1
    · right
      simpa using h1

/-- Helper: replacing every entry keyed `k` and then looking up `k` yields
the replacement, provided some entry matched. -/
theorem findSeen_map_replace (k : String) (v : SeenDecision) :
    ∀ (m : List (String × SeenDecision)),
      m.any (fun kv => kv.1 == k) = true →
      findSeen (m.map (fun kv => if kv.1 == k then (k, v) else kv)) k = some v := by
  intro m hm
  induction m with
  | nil => simp at hm
  | cons hd tl ih =>
    cases hbeq : (hd.1 == k) with
    | true =>
      unfold findSeen
      simp only [List.map_cons, if_pos hbeq]
      rw [List.find?_cons_of_pos _ (by simp)]
      rfl
    | false =>
      have htl : tl.any (fun kv => kv.1 == k) = true := by
        simp only [List.any_cons, hbeq, Bool.false_or] at hm
        exact hm
      have hres := ih htl
      unfold findSeen at hres ⊢
      have hhead : (if (hd.1 == k) = true then (k, v) else hd) = hd :=
        if_neg (by simp [hbeq])
      simp only [List.map_cons, hhead]
      rw [List.find?_cons_of_neg _ (by simp [hbeq])]
      exact hres

/-- Helper: appending a fresh entry keyed `k` and looking up `k` yields the
new entry, provided no existing entry matched. -/
theorem findSeen_append_fresh (k : String) (v : SeenDecision) :
    ∀ (m : List (String × SeenDecision)),
      m.any (fun kv => kv.1 == k) = false →
      findSeen (m ++ [(k, v)]) k = some v := by
  intro m hm
  unfold findSeen
  rw [List.find?_append]
  have h1 : m.find? (fun kv => kv.1 == k) = none :=
    List.find?_eq_none.mpr (List.any_eq_false.mp hm)
  rw [h1]
  simp [List.find?_cons]

/-- Helper: looking up the key just written into the dedup table returns the
written entry. -/
theorem findSeen_setSeen (l : List (String × SeenDecision)) (k : String)
    (v : SeenDecision) : findSeen (setSeen l k v) k = some v := by
  unfold setSeen
  cases hany : l.any (fun kv => kv.1 == k) with
  | true =>
    rw [if_pos rfl]
    exact findSeen_map_replace k v l hany
  | false =>
    rw [if_neg (by simp)]
    exact findSeen_append_fresh k v l hany

/-- Helper: pruning preserves the all-pass dedup invariant. -/
theorem seenAllPass_prune {seen : List (String × SeenDecision)} {now : Int}
    (hs : seenAllPass seen) : seenAllPass (pruneSeenEvents now seen) := by
  intro kv hm
  exact hs kv (List.mem_filter.1 hm).1

/-- Helper: writing a pass entry preserves the all-pass dedup invariant. -/
theorem seenAllPass_setSeen {seen : List (String × SeenDecision)} {k : String}
    {v : SeenDecision} (hs : seenAllPass seen) (hv : v.decision = Decision.pass) :
    seenAllPass (setSeen seen k v) := by
  intro kv hm
  rcases mem_setSeen hm with h1 | h1
  · exact hs kv h1
  · rw [h1]
    exact hv

/-- Helper: a `handled` inspection names an owner Talk that exists in the
store and a matched binding. -/
theorem inspect_handled_struct (event : SlackIngressEvent) (store : List TalkMeta) :
    (inspectSlackOwnership event store).decision = Decision.pass ∨
    ((inspectSlackOwnership event store).decision = Decision.handled ∧
      ∃ tid, (inspectSlackOwnership event store).talkId = some tid ∧
        (inspectSlackOwnership event store).bindingId ≠ none ∧
        ∃ meta, getTalk store tid = some meta) := by
  cases ho1 : (resolveOwnerTalk store { event with text := "" }).talkId with
  | none =>
    left
    simp [inspectSlackOwnership, ho1]
  | some tid =>
    cases ho2 : (resolveOwnerTalk store { event with text := "" }).binding with
    | none =>
      left
      simp [inspectSlackOwnership, ho1, ho2]
    | some b =>
      cases hget : getTalk store tid with
      | none =>
        left
        simp [inspectSlackOwnership, ho1, ho2, hget]
      | some meta =>
        cases hb : (shouldHandleViaBehavior meta b.id event.text event.userId
            event.userName).handle with
        | false =>
          left
          simp [inspectSlackOwnership, ho1, ho2, hget, hb]
        | true =>
          right
          refine ⟨?_, tid, ?_, ?_, meta, hget⟩ <;>
            simp [inspectSlackOwnership, ho1, ho2, hget, hb]

/-- C6: replaying an event whose dedup entry is within the 6-hour TTL
returns the originally recorded decision and reason with `duplicate = true`,
performs no further processing (no counter change, no mirror effect, and the
result does not depend on the Talk store at all), and only prunes the dedup
table. -/
theorem duplicate_event_returns_original :
    ∀ (event : SlackIngressEvent) (store store2 : List TalkMeta) (st : IngressState)
      (now : Int) (uuid : String) (d : SeenDecision),
      findSeen st.seen event.eventId = some d →
      now - d.ts ≤ EVENT_TTL_MS →
      (routeSlackIngressEvent event store st now uuid).payload =
        { decision := d.decision, eventId := event.eventId, talkId := d.talkId,
          reason := d.reason, duplicate := some true } ∧
      (routeSlackIngressEvent event store st now uuid).state.counters = st.counters ∧
      (routeSlackIngressEvent event store st now uuid).effects = [] ∧
      (routeSlackIngressEvent event store st now uuid).state.seen =
        pruneSeenEvents now st.seen ∧
      routeSlackIngressEvent event store st now uuid =
        routeSlackIngressEvent event store2 st now uuid := by
  intro event store store2 st now uuid d hfind httl
  have hp : findSeen (pruneSeenEvents now st.seen) event.eventId = some d :=
    findSeen_prune hfind (by omega)
  have hroute : ∀ s : List TalkMeta,
      routeSlackIngressEvent event s st now uuid =
        { statusCode := 200
          payload :=
            { decision := d.decision, eventId := event.eventId, talkId := d.talkId,
              reason := d.reason, duplicate := some true }
          state := { seen := pruneSeenEvents now st.seen, counters := st.counters }
          effects := [] } := by
    intro s
    unfold routeSlackIngressEvent
    dsimp only
    rw [hp]
  refine ⟨?_, ?_, ?_, ?_, ?_⟩
  · rw [hroute store]
  · rw [hroute store]
  · rw [hroute store]
  · rw [hroute store]
  · rw [hroute store, hroute store2]

/-- Witness for C6 at a concrete pre-recorded event inside the TTL. -/
theorem duplicate_event_returns_original_witness :
    (routeSlackIngressEvent sampleEvent [sampleTalk] sampleSeenState 5 "u1").payload =
      { decision := Decision.pass, eventId := "e1", talkId := some "talk-1",
        reason := some "delegated-to-agent", duplicate := some true } :=
  (duplicate_event_returns_original sampleEvent [sampleTalk] [] sampleSeenState 5 "u1"
    sampleSeenEntry (by decide) (by decide)).1

/-- C1: from any dedup state whose entries all record `pass` (the only state
the ingress ever produces), routing returns a payload whose decision is
`pass` — never `handled` — issues no LLM call (every effect is a history
mirror append), and, for a fresh event whose ownership is established,
records it as `pass` with reason `delegated-to-agent`, leaving the reply to
the host's managed agent; the all-pass dedup invariant is preserved. -/
theorem routeSlackIngressEvent_always_passes :
    ∀ (event : SlackIngressEvent) (store : List TalkMeta) (st : IngressState)
      (now : Int) (uuid : String),
      seenAllPass st.seen →
      (routeSlackIngressEvent event store st now uuid).payload.decision =
        Decision.pass ∧
      (∀ eff ∈ (routeSlackIngressEvent event store st now uuid).effects,
        ∃ tid msg, eff = IngressEffect.mirrorAppend tid msg) ∧
      (findSeen (pruneSeenEvents now st.seen) event.eventId = none →
        (inspectSlackOwnership event store).decision = Decision.handled →
        (routeSlackIngressEvent event store st now uuid).payload.reason =
          some "delegated-to-agent" ∧
        findSeen (routeSlackIngressEvent event store st now uuid).state.seen
            event.eventId =
          some { ts := now, decision := Decision.pass,
                 talkId := (inspectSlackOwnership event store).talkId,
                 reason := some "delegated-to-agent" }) ∧
      seenAllPass (routeSlackIngressEvent event store st now uuid).state.seen := by
  intro event store st now uuid hpass
  cases hf : findSeen (pruneSeenEvents now st.seen) event.eventId with
  | some d =>
    have hroute : routeSlackIngressEvent event store st now uuid =
        { statusCode := 200
          payload :=
            { decision := d.decision, eventId := event.eventId, talkId := d.talkId,
              reason := d.reason, duplicate := some true }
          state := { seen := pruneSeenEvents now st.seen, counters := st.counters }
          effects := [] } := by
      unfold routeSlackIngressEvent
      dsimp only
      rw [hf]
    have hdpass : d.decision = Decision.pass := by
      rcases findSeen_mem hf with ⟨kv, hkv, hkv2⟩
      have := hpass kv (List.mem_filter.1 hkv).1
      rw [hkv2] at this
      exact this
    refine ⟨?_, ?_, ?_, ?_⟩
    · rw [hroute]
      exact hdpass
    · rw [hroute]
      intro eff heff
      cases heff
    · intro hnone
      cases hnone
    · rw [hroute]
      exact seenAllPass_prune hpass
  | none =>
    by_cases hcond : ((inspectSlackOwnership event store).decision = Decision.pass ∨
        (inspectSlackOwnership event store).talkId = none ∨
        (inspectSlackOwnership event store).bindingId = none)
    · have hroute : routeSlackIngressEvent event store st now uuid =
          { statusCode := 200
            payload :=
              { decision := Decision.pass, eventId := event.eventId, talkId := none,
                reason :=
                  some ((inspectSlackOwnership event store).reason.getD "no-binding"),
                duplicate := none }
            state :=
              { seen := setSeen (pruneSeenEvents now st.seen) event.eventId
                  { ts := now, decision := Decision.pass, talkId := none,
                    reason :=
                      some ((inspectSlackOwnership event store).reason.getD "no-binding") }
                counters :=
                  match (inspectSlackOwnership event store).talkId with
                  | some tid => assocIncr st.counters tid
                  | none => st.counters }
            effects := [] } := by
        unfold routeSlackIngressEvent
        dsimp only
        rw [hf, if_pos hcond]
      refine ⟨?_, ?_, ?_, ?_⟩
      · rw [hroute]
      · rw [hroute]
        intro eff heff
        cases heff
      · intro _ hhand
        exfalso
        rcases inspect_handled_struct event store with hdec | ⟨_, tid, htid, hbind, _, _⟩
        · rw [hhand] at hdec
          cases hdec
        · rcases hcond with h1 | h1 | h1
          · rw [hhand] at h1
            cases h1
          · rw [htid] at h1
            cases h1
          · exact hbind h1
      · rw [hroute]
        exact seenAllPass_setSeen (seenAllPass_prune hpass) rfl
    · push_neg at hcond
      obtain ⟨hd1, hd2, hd3⟩ := hcond
      cases htid : (inspectSlackOwnership event store).talkId with
      | none => exact absurd htid hd2
      | some tid =>
        cases hget : getTalk store tid with
        | none =>
          have hroute : routeSlackIngressEvent event store st now uuid =
              { statusCode := 200
                payload :=
                  { decision := Decision.pass, eventId := event.eventId,
                    talkId := none, reason := some "talk-not-found",
                    duplicate := none }
                state :=
                  { seen := setSeen (pruneSeenEvents now st.seen) event.eventId
                      { ts := now, decision := Decision.pass, talkId := none,
                        reason := some "talk-not-found" }
                    counters := st.counters }
                effects := [] } := by
            unfold routeSlackIngressEvent
            dsimp only
            rw [hf, if_neg (by
              intro hor
              rcases hor with h1 | h1 | h1
              · exact hd1 h1
              · exact hd2 h1
              · exact hd3 h1), htid]
            simp only [Option.getD_some]
            rw [hget]
          refine ⟨?_, ?_, ?_, ?_⟩
          · rw [hroute]
          · rw [hroute]
            intro eff heff
            cases heff
          · intro _ hhand
            exfalso
            rcases inspect_handled_struct event store with hdec | ⟨_, tid2, htid2, _, meta2, hget2⟩
            · rw [hhand] at hdec
              cases hdec
            · rw [htid] at htid2
              cases htid2
              rw [hget] at hget2
              cases hget2
          · rw [hroute]
            exact seenAllPass_setSeen (seenAllPass_prune hpass) rfl
        | some meta =>
          have hroute : routeSlackIngressEvent event store st now uuid =
              { statusCode := 200
                payload :=
                  { decision := Decision.pass, eventId := event.eventId,
                    talkId := some tid, reason := some "delegated-to-agent",
                    duplicate := none }
                state :=
                  { seen := setSeen (pruneSeenEvents now st.seen) event.eventId
                      { ts := now, decision := Decision.pass, talkId := some tid,
                        reason := some "delegated-to-agent" }
                    counters := assocIncr st.counters tid }
                effects :=
                  if (inspectSlackOwnership event store).behaviorMirrorToTalk.getD
                        MirrorMode.off = MirrorMode.inbound ∨
                      (inspectSlackOwnership event store).behaviorMirrorToTalk.getD
                        MirrorMode.off = MirrorMode.full then
                    [IngressEffect.mirrorAppend tid
                      { id := uuid, role := MessageRole.user,
                        content := buildInboundMessage event, timestamp := now }]
                  else [] } := by
            unfold routeSlackIngressEvent
            dsimp only
            rw [hf, if_neg (by
              intro hor
              rcases hor with h1 | h1 | h1
              · exact hd1 h1
              · exact hd2 h1
              · exact hd3 h1), htid]
            simp only [Option.getD_some]
            rw [hget]
          refine ⟨?_, ?_, ?_, ?_⟩
          · rw [hroute]
          · rw [hroute]
            intro eff heff
            simp only at heff
            split at heff
            · rcases List.mem_singleton.1 heff with heq
              exact ⟨tid, _, heq⟩
            · cases heff
          · intro _ _
            constructor
            · rw [hroute]
            · rw [hroute]
              exact findSeen_setSeen _ _ _
          · rw [hroute]
            split
            · exact seenAllPass_setSeen (seenAllPass_prune hpass) rfl
            · exact seenAllPass_setSeen (seenAllPass_prune hpass) rfl

/-- Witness for C1 at a concrete owned channel with an empty ingress state:
the decision is `pass` with reason `delegated-to-agent`. -/
theorem routeSlackIngressEvent_always_passes_witness :
    (routeSlackIngressEvent sampleEvent [sampleTalk]
        { seen := [], counters := [] } 5 "u1").payload.decision = Decision.pass ∧
    (routeSlackIngressEvent sampleEvent [sampleTalk]
        { seen := [], counters := [] } 5 "u1").payload.reason =
      some "delegated-to-agent" := by
  have h := routeSlackIngressEvent_always_passes sampleEvent [sampleTalk]
    { seen := [], counters := [] } 5 "u1" (by intro kv hkv; cases hkv)
  exact ⟨h.1, (h.2.2.1 (by decide) (by decide)).1⟩

/-- Helper: a max-fold never drops below its seed. -/
theorem le_foldl_max (l : List Int) (a : Int) : a ≤ l.foldl max a := by
  induction l generalizing a with
  | nil => exact le_refl a
  | cons x xs ih => exact le_trans (le_max_left a x) (ih (max a x))

/-- Helper: a max-fold commutes with a max on the seed. -/
theorem foldl_max_max (l : List Int) (a b : Int) :
    l.foldl max (max a b) = max a (l.foldl max b) := by
  induction l generalizing b with
  | nil => rfl
  | cons x xs ih =>
    simp only [List.foldl_cons]
    rw [max_assoc]
    exact ih (max b x)

/-- Helper: the running-max component of the inner binding loop. -/
theorem scoreStep_fst (event : SlackIngressEvent) (acc : Int × Option PlatformBinding)
    (b : PlatformBinding) :
    (scoreStep event acc b).1 = max acc.1 (scoreSlackBinding b event) := by
  unfold scoreStep
  dsimp only
  split <;> omega

/-- Helper: the first component of the binding fold is the max of the
bindings' scores over the seed. -/
theorem talkBest_fst (event : SlackIngressEvent) :
    ∀ (bs : List PlatformBinding) (acc : Int × Option PlatformBinding),
      (bs.foldl (scoreStep event) acc).1 =
        (bs.map (fun b => scoreSlackBinding b event)).foldl max acc.1 := by
  intro bs
  induction bs with
  | nil => intro acc; rfl
  | cons b rest ih =>
    intro acc
    simp only [List.foldl_cons, List.map_cons]
    rw [ih]
    congr 1
    exact scoreStep_fst event acc b

/-- Helper: the binding fold either leaves the seed untouched or returns a
binding from the list achieving the running max. -/
theorem talkBest_cases (event : SlackIngressEvent) :
    ∀ (bs : List PlatformBinding) (acc : Int × Option PlatformBinding),
      ((bs.foldl (scoreStep event) acc).2 = acc.2 ∧
        (bs.foldl (scoreStep event) acc).1 = acc.1) ∨
      (∃ b ∈ bs, (bs.foldl (scoreStep event) acc).2 = some b ∧
        scoreSlackBinding b event = (bs.foldl (scoreStep event) acc).1) := by
  intro bs
  induction bs with
  | nil => intro acc; exact Or.inl ⟨rfl, rfl⟩
  | cons b rest ih =>
    intro acc
    simp only [List.foldl_cons]
    rcases ih (scoreStep event acc b) with ⟨h2, h1⟩ | ⟨b', hb', h2, h1⟩
    · by_cases hlt : acc.1 < scoreSlackBinding b event
      · have hseed : scoreStep event acc b = (scoreSlackBinding b event, some b) := by
          unfold scoreStep
          dsimp only
          rw [if_pos hlt]
        rw [hseed] at h2 h1
        right
        refine ⟨b, List.mem_cons_self b rest, ?_, ?_⟩
        · rw [hseed, h2]
        · rw [hseed, h1]
      · have hseed : scoreStep event acc b = acc := by
          unfold scoreStep
          dsimp only
          rw [if_neg hlt]
        rw [hseed] at h2 h1
        rw [hseed]
        exact Or.inl ⟨h2, h1⟩
    · right
      exact ⟨b', List.mem_cons_of_mem b hb', h2, h1⟩

/-- Helper: a Talk's score equals the first component of its binding fold. -/
theorem talkScore_eq_best (t : TalkMeta) (event : SlackIngressEvent) :
    talkScore t event = (talkBestBinding t.platformBindings event).1 := by
  unfold talkScore talkBestBinding
  rw [talkBest_fst]

/-- Helper: a Talk whose binding fold produced no binding has score -1. -/
theorem talkBest_none (t : TalkMeta) (event : SlackIngressEvent)
    (h : (talkBestBinding t.platformBindings event).2 = none) :
    talkScore t event = -1 := by
  rw [talkScore_eq_best]
  rcases talkBest_cases event t.platformBindings (-1, none) with ⟨_, h1⟩ | ⟨b, _, h2, _⟩
  · exact h1
  · unfold talkBestBinding at h
    rw [h] at h2
    cases h2

/-- Helper: the binding chosen by the fold is in the list and achieves the
Talk's score. -/
theorem talkBest_some (t : TalkMeta) (event : SlackIngressEvent)
    (b : PlatformBinding)
    (h : (talkBestBinding t.platformBindings event).2 = some b) :
    b ∈ t.platformBindings ∧ scoreSlackBinding b event = talkScore t event := by
  rcases talkBest_cases event t.platformBindings (-1, none) with ⟨h2, _⟩ | ⟨b', hb', h2, h1⟩
  · unfold talkBestBinding at h
    rw [h2] at h
    cases h
  · unfold talkBestBinding at h
    rw [h2] at h
    cases h
    exact ⟨hb', by rw [talkScore_eq_best]; exact h1⟩

/-- Helper: a Talk's score is at least -1. -/
theorem neg_one_le_talkScore (t : TalkMeta) (event : SlackIngressEvent) :
    -1 ≤ talkScore t event := by
  unfold talkScore
  exact le_foldl_max _ _

/-- Helper: the best score over a cons. -/
theorem bestOf_cons (t : TalkMeta) (rest : List TalkMeta) (event : SlackIngressEvent) :
    bestOf (t :: rest) event = max (talkScore t event) (bestOf rest event) := by
  unfold bestOf
  simp only [List.map_cons, List.foldl_cons]
  rw [max_comm (-1) (talkScore t event)]
  exact foldl_max_max _ _ _

/-- Helper: the best score over Talks is at least -1. -/
theorem neg_one_le_bestOf (talks : List TalkMeta) (event : SlackIngressEvent) :
    -1 ≤ bestOf talks event := le_foldl_max _ _


/-- Helper: a `candidateSpec` cons where the head Talk has no best binding. -/
theorem candidateSpec_cons_none (t : TalkMeta) (rest : List TalkMeta)
    (event : SlackIngressEvent) (m : Int)
    (hob : (talkBestBinding t.platformBindings event).2 = none) :
    candidateSpec (t :: rest) event m = candidateSpec rest event m := by
  simp only [candidateSpec, List.filterMap_cons, hob]

/-- Helper: a `candidateSpec` cons where the head Talk has a best binding. -/
theorem candidateSpec_cons_some (t : TalkMeta) (rest : List TalkMeta)
    (event : SlackIngressEvent) (m : Int) (b : PlatformBinding)
    (hob : (talkBestBinding t.platformBindings event).2 = some b) :
    candidateSpec (t :: rest) event m =
      (if 0 ≤ (talkBestBinding t.platformBindings event).1 ∧
          (talkBestBinding t.platformBindings event).1 = m
        then [(t, b)] else []) ++ candidateSpec rest event m := by
  by_cases hc : 0 ≤ (talkBestBinding t.platformBindings event).1 ∧
      (talkBestBinding t.platformBindings event).1 = m
  · simp only [candidateSpec, List.filterMap_cons, hob, if_pos hc]
    rfl
  · simp only [candidateSpec, List.filterMap_cons, hob, if_neg hc]
    rfl

/-- Helper: the loop invariant of the outer fold of `resolveOwnerTalk`:
starting from a best score `best ≥ -1` and candidate list `cands`, the fold
computes the max of `best` and the Talks' scores, resets the candidates if
the Talks strictly improve on `best`, and appends every Talk attaining the
final max. -/
theorem resolveLoop_spec (event : SlackIngressEvent) :
    ∀ (ts : List TalkMeta) (best : Int) (cands : List (TalkMeta × PlatformBinding)),
      -1 ≤ best →
      ts.foldl (resolveStep event) (best, cands) =
        (max best (bestOf ts event),
          (if best < max best (bestOf ts event) then [] else cands) ++
            candidateSpec ts event (max best (bestOf ts event))) := by
  intro ts
  induction ts with
  | nil =>
    intro best cands hb
    have h1 : bestOf ([] : List TalkMeta) event = -1 := rfl
    rw [h1]
    have h2 : max best (-1 : Int) = best := by omega
    rw [h2, if_neg (lt_irrefl best)]
    have h3 : candidateSpec [] event best = [] := rfl
    rw [h3, List.append_nil]
    rfl
  | cons t rest ih =>
    intro best cands hb
    simp only [List.foldl_cons]
    have hM : -1 ≤ bestOf rest event := neg_one_le_bestOf rest event
    have hbo : bestOf (t :: rest) event = max (talkScore t event) (bestOf rest event) :=
      bestOf_cons t rest event
    have hfst : (talkBestBinding t.platformBindings event).1 = talkScore t event :=
      (talkScore_eq_best t event).symm
    cases hob : (talkBestBinding t.platformBindings event).2 with
    | none =>
      have hs : talkScore t event = -1 := talkBest_none t event hob
      have hstep : resolveStep event (best, cands) t = (best, cands) := by
        unfold resolveStep
        rw [hob]
      have hmax : max (-1 : Int) (bestOf rest event) = bestOf rest event := max_eq_right hM
      rw [hstep, ih best cands hb, hbo, hs, hmax, candidateSpec_cons_none t rest event _ hob]
    | some b =>
      by_cases hneg : (talkBestBinding t.platformBindings event).1 < 0
      · have h1 := neg_one_le_talkScore t event
        have hs : talkScore t event = -1 := by omega
        have hstep : resolveStep event (best, cands) t = (best, cands) := by
          unfold resolveStep
          rw [hob]
          dsimp only
          rw [if_pos hneg]
        have hmax : max (-1 : Int) (bestOf rest event) = bestOf rest event := max_eq_right hM
        rw [hstep, ih best cands hb, hbo, hs, hmax,
          candidateSpec_cons_some t rest event _ b hob]
        have hcnd : ¬(0 ≤ (talkBestBinding t.platformBindings event).1 ∧
            (talkBestBinding t.platformBindings event).1 = max best (bestOf rest event)) := by
          intro hc
          exact absurd hc.1 (by omega)
        rw [if_neg hcnd]
        rfl
      · push_neg at hneg
        by_cases hgt : best < (talkBestBinding t.platformBindings event).1
        · have hstep : resolveStep event (best, cands) t =
              ((talkBestBinding t.platformBindings event).1, [(t, b)]) := by
            unfold resolveStep
            rw [hob]
            dsimp only
            rw [if_neg (by omega), if_pos hgt]
          rw [hstep, ih ((talkBestBinding t.platformBindings event).1) [(t, b)] (by omega),
            hbo, ← hfst]
          have hmm : max best (max (talkBestBinding t.platformBindings event).1
              (bestOf rest event)) =
              max (talkBestBinding t.platformBindings event).1 (bestOf rest event) := by
            omega
          rw [hmm, candidateSpec_cons_some t rest event _ b hob,
            if_pos (lt_of_lt_of_le hgt (le_max_left _ _))]
          by_cases hSM : (talkBestBinding t.platformBindings event).1 <
              max (talkBestBinding t.platformBindings event).1 (bestOf rest event)
          · rw [if_pos hSM, if_neg (fun hc => absurd hc.2 (ne_of_lt hSM))]
            rfl
          · rw [if_neg hSM, if_pos ⟨hneg, by omega⟩]
            rfl
        · by_cases heq2 : (talkBestBinding t.platformBindings event).1 = best
          · have hstep : resolveStep event (best, cands) t = (best, cands ++ [(t, b)]) := by
              unfold resolveStep
              rw [hob]
              dsimp only
              rw [if_neg (by omega), if_neg hgt, if_pos heq2]
            rw [hstep, ih best (cands ++ [(t, b)]) hb, hbo, ← hfst, heq2]
            have hmm : max best (max best (bestOf rest event)) =
                max best (bestOf rest event) := by omega
            rw [hmm, candidateSpec_cons_some t rest event _ b hob]
            by_cases hbm : best < max best (bestOf rest event)
            · have hcnd : ¬(0 ≤ (talkBestBinding t.platformBindings event).1 ∧
                  (talkBestBinding t.platformBindings event).1 =
                    max best (bestOf rest event)) := by
                intro hc
                exact absurd hc.2 (by omega)
              rw [if_pos hbm, if_pos hbm, if_neg hcnd]
              rfl
            · have hcnd : 0 ≤ (talkBestBinding t.platformBindings event).1 ∧
                  (talkBestBinding t.platformBindings event).1 =
                    max best (bestOf rest event) := ⟨hneg, by omega⟩
              rw [if_neg hbm, if_neg hbm, if_pos hcnd]
              rw [List.append_assoc]
          · have hstep : resolveStep event (best, cands) t = (best, cands) := by
              unfold resolveStep
              rw [hob]
              dsimp only
              rw [if_neg (by omega), if_neg hgt, if_neg heq2]
            rw [hstep, ih best cands hb, hbo, ← hfst]
            have hmm : max best (max (talkBestBinding t.platformBindings event).1
                (bestOf rest event)) = max best (bestOf rest event) := by omega
            rw [hmm, candidateSpec_cons_some t rest event _ b hob]
            have hcnd : ¬(0 ≤ (talkBestBinding t.platformBindings event).1 ∧
                (talkBestBinding t.platformBindings event).1 =
                  max best (bestOf rest event)) := by
              intro hc
              exact absurd hc.2 (by omega)
            rw [if_neg hcnd]
            rfl

/-- Helper: the outer fold from the initial state computes the best score and
the full candidate list. -/
theorem resolveLoop_eq (talks : List TalkMeta) (event : SlackIngressEvent) :
    resolveLoop talks event =
      (bestTalkScore talks event, candidateSpec talks event (bestTalkScore talks event)) := by
  unfold resolveLoop
  rw [resolveLoop_spec event talks (-1) [] (le_refl _)]
  have hM : -1 ≤ bestOf talks event := neg_one_le_bestOf talks event
  have h1 : max (-1 : Int) (bestOf talks event) = bestOf talks event := max_eq_right hM
  rw [h1]
  have h2 : bestTalkScore talks event = bestOf talks event := rfl
  rw [h2]
  rw [ite_self, List.nil_append]


/-- Helper: a member of `candidateSpec` is a Talk of the list paired with its
argmax binding, and its score is non-negative and attains `m`. -/
theorem mem_candidateSpec (talks : List TalkMeta) (e : SlackIngressEvent) (m : Int)
    (c : TalkMeta × PlatformBinding) (h : c ∈ candidateSpec talks e m) :
    c.1 ∈ talks ∧ (talkBestBinding c.1.platformBindings e).2 = some c.2 ∧
      0 ≤ talkScore c.1 e ∧ talkScore c.1 e = m := by
  unfold candidateSpec at h
  rw [List.mem_filterMap] at h
  obtain ⟨t, ht, hf⟩ := h
  cases hob : (talkBestBinding t.platformBindings e).2 with
  | none =>
    simp only [hob] at hf
    cases hf
  | some b =>
    simp only [hob] at hf
    by_cases hcnd : 0 ≤ (talkBestBinding t.platformBindings e).1 ∧
        (talkBestBinding t.platformBindings e).1 = m
    · rw [if_pos hcnd] at hf
      injection hf with hf2
      subst hf2
      refine ⟨ht, hob, ?_, ?_⟩
      · rw [talkScore_eq_best]
        exact hcnd.1
      · rw [talkScore_eq_best]
        exact hcnd.2
    · rw [if_neg hcnd] at hf
      cases hf

/-- Helper: projecting `candidateSpec` onto the Talks yields the filter of
Talks with non-negative score attaining `m`. -/
theorem candidateSpec_map_fst (e : SlackIngressEvent) (m : Int) :
    ∀ talks : List TalkMeta,
      (candidateSpec talks e m).map Prod.fst =
        talks.filter (fun t =>
          decide (0 ≤ talkScore t e) && decide (talkScore t e = m)) := by
  intro talks
  induction talks with
  | nil => rfl
  | cons t rest ih =>
    cases hob : (talkBestBinding t.platformBindings e).2 with
    | none =>
      rw [candidateSpec_cons_none t rest e m hob]
      have hs : talkScore t e = -1 := talkBest_none t e hob
      have h0 : decide (0 ≤ talkScore t e) = false := by
        rw [hs]
        decide
      rw [List.filter_cons]
      rw [h0, Bool.false_and]
      rw [if_neg (by simp)]
      exact ih
    | some b =>
      rw [candidateSpec_cons_some t rest e m b hob]
      have hfst : (talkBestBinding t.platformBindings e).1 = talkScore t e :=
        (talkScore_eq_best t e).symm
      rw [hfst]
      rw [List.filter_cons]
      by_cases hc : 0 ≤ talkScore t e ∧ talkScore t e = m
      · rw [if_pos hc]
        have hp : (decide (0 ≤ talkScore t e) && decide (talkScore t e = m)) = true := by
          rw [decide_eq_true hc.1, decide_eq_true hc.2]
          rfl
        rw [hp, if_pos rfl]
        rw [List.singleton_append, List.map_cons, ih]
      · rw [if_neg hc]
        have hp : ¬((decide (0 ≤ talkScore t e) && decide (talkScore t e = m)) = true) := by
          rw [Bool.and_eq_true, decide_eq_true_eq, decide_eq_true_eq]
          exact hc
        rw [if_neg hp]
        rw [List.nil_append]
        exact ih

/-- Helper: the source scoring table agrees everywhere with the amended
table (the two differ only in how the channel-name cases are phrased). -/
theorem scoreSlackBinding_eq_amended (b : PlatformBinding) (e : SlackIngressEvent) :
    scoreSlackBinding b e = scoreSlackBindingAmendedOrder b e := by
  unfold scoreSlackBinding scoreSlackBindingAmendedOrder
  dsimp only
  cases hcn : normalizeChannelName e.channelName <;> rfl

/-- Helper: the resolver from the store's Talks: empty top set means
`no-binding`, a unique top Talk wins with its argmax binding, two or more
top Talks mean `ambiguous-binding`. -/
theorem resolveOwner_characterize (talks : List TalkMeta) (e : SlackIngressEvent) :
    (topTalks talks e = [] →
      resolveOwnerTalk talks e =
        { talkId := none, reason := some "no-binding", binding := none }) ∧
    (∀ t : TalkMeta, topTalks talks e = [t] →
      ∃ b ∈ t.platformBindings,
        resolveOwnerTalk talks e =
          { talkId := some t.id, reason := none, binding := some b } ∧
        scoreSlackBinding b e = talkScore t e ∧
        talkScore t e = bestTalkScore talks e ∧ 0 ≤ talkScore t e) ∧
    (2 ≤ (topTalks talks e).length →
      resolveOwnerTalk talks e =
        { talkId := none, reason := some "ambiguous-binding", binding := none }) := by
  have hloop : (resolveLoop talks e).2 =
      candidateSpec talks e (bestTalkScore talks e) := by
    rw [resolveLoop_eq]
  have hmap : (candidateSpec talks e (bestTalkScore talks e)).map Prod.fst =
      topTalks talks e := by
    rw [candidateSpec_map_fst]
    rfl
  refine ⟨?_, ?_, ?_⟩
  · intro h0
    have hcs : candidateSpec talks e (bestTalkScore talks e) = [] := by
      rw [h0] at hmap
      exact List.map_eq_nil_iff.mp hmap
    unfold resolveOwnerTalk
    rw [hloop, hcs]
  · intro t ht
    have hm2 : (candidateSpec talks e (bestTalkScore talks e)).map Prod.fst = [t] := by
      rw [hmap, ht]
    obtain ⟨c, hcs, hct⟩ : ∃ c, candidateSpec talks e (bestTalkScore talks e) = [c] ∧
        c.1 = t := by
      cases hcs : candidateSpec talks e (bestTalkScore talks e) with
      | nil =>
        rw [hcs] at hm2
        simp at hm2
      | cons c cs =>
        rw [hcs] at hm2
        simp only [List.map_cons] at hm2
        cases cs with
        | nil =>
          simp at hm2
          exact ⟨c, rfl, hm2⟩
        | cons c2 cs2 =>
          simp at hm2
    have hmem : c ∈ candidateSpec talks e (bestTalkScore talks e) := by
      rw [hcs]
      exact List.mem_singleton_self c
    obtain ⟨-, hob, h0, hBeq⟩ := mem_candidateSpec talks e _ c hmem
    have hsb := talkBest_some c.1 e c.2 hob
    subst hct
    refine ⟨c.2, hsb.1, ?_, hsb.2, hBeq, h0⟩
    unfold resolveOwnerTalk
    rw [hloop, hcs]
  · intro h2
    have hlen : 2 ≤ (candidateSpec talks e (bestTalkScore talks e)).length := by
      rw [← hmap, List.length_map] at h2
      exact h2
    cases hcs : candidateSpec talks e (bestTalkScore talks e) with
    | nil =>
      rw [hcs] at hlen
      simp at hlen
    | cons c cs =>
      cases cs with
      | nil =>
        rw [hcs] at hlen
        simp at hlen
      | cons c2 cs2 =>
        unfold resolveOwnerTalk
        rw [hloop, hcs]


/-- C7, counterexample: the claim's scoring table checks the exact-channel
equalities before the wildcards and grants `95` only to the outbound target
itself, but the source checks the wildcard case first (a binding with scope
`all` on an event whose channel id is also `all` scores `10`, not the
claimed `100`) and grants `95` also to the `slack:`-prefixed outbound
target (which the claim's table sends to `-1`). -/
theorem scoreSlackBinding_order_counterexample :
    scoreSlackBinding wildcardBinding channelAllEvent = 10 ∧
    scoreSlackBindingClaimOrder wildcardBinding channelAllEvent = 100 ∧
    scoreSlackBinding wildcardBinding channelAllEvent ≠
      scoreSlackBindingClaimOrder wildcardBinding channelAllEvent ∧
    scoreSlackBinding slackTargetBinding targetEvent = 95 ∧
    scoreSlackBindingClaimOrder slackTargetBinding targetEvent = -1 := by
  refine ⟨by decide, by decide, by decide, by decide, by decide⟩

/-- C7 (amended): `scoreSlackBinding` assigns `-1` on the platform,
permission and account exclusions, then `10` for the wildcards `*`, `all`,
`slack:*` (checked first), then `100` for the exact channel-id forms, `95`
for the normalized outbound target or its `slack:`-prefixed form, `90` for
`#<channelName>` or `<channelName>`, `80` for a scope ending in
` #<channelName>`, and `-1` otherwise; each Talk scores the max over its
bindings with the argmax binding chosen, the unique Talk with the highest
non-negative score owns the event, and a tie of two or more top Talks
resolves to reason `ambiguous-binding` instead of picking one. -/
theorem slack_binding_scoring_amended :
    (∀ (b : PlatformBinding) (e : SlackIngressEvent),
        scoreSlackBinding b e = scoreSlackBindingAmendedOrder b e) ∧
    ∀ (talks : List TalkMeta) (e : SlackIngressEvent),
      (topTalks talks e = [] →
        resolveOwnerTalk talks e =
          { talkId := none, reason := some "no-binding", binding := none }) ∧
      (∀ t : TalkMeta, topTalks talks e = [t] →
        ∃ b ∈ t.platformBindings,
          resolveOwnerTalk talks e =
            { talkId := some t.id, reason := none, binding := some b } ∧
          scoreSlackBinding b e = talkScore t e ∧
          talkScore t e = bestTalkScore talks e ∧ 0 ≤ talkScore t e) ∧
      (2 ≤ (topTalks talks e).length →
        resolveOwnerTalk talks e =
          { talkId := none, reason := some "ambiguous-binding", binding := none }) :=
  ⟨scoreSlackBinding_eq_amended, resolveOwner_characterize⟩

/-- Witness for C7 at concrete inputs: the wildcard binding agrees with the
amended table, a uniquely bound channel resolves to its Talk with the
argmax binding, and two Talks tied on the same channel resolve to
`ambiguous-binding`. -/
theorem slack_binding_scoring_amended_witness :
    scoreSlackBinding wildcardBinding channelAllEvent =
      scoreSlackBindingAmendedOrder wildcardBinding channelAllEvent ∧
    (∃ b ∈ sampleTalk.platformBindings,
      resolveOwnerTalk [sampleTalk] sampleEvent =
        { talkId := some sampleTalk.id, reason := none, binding := some b } ∧
      scoreSlackBinding b sampleEvent = talkScore sampleTalk sampleEvent ∧
      talkScore sampleTalk sampleEvent = bestTalkScore [sampleTalk] sampleEvent ∧
      0 ≤ talkScore sampleTalk sampleEvent) ∧
    resolveOwnerTalk [sampleTalk, sampleTalk2] sampleEvent =
      { talkId := none, reason := some "ambiguous-binding", binding := none } ∧
    resolveOwnerTalk [] sampleEvent =
      { talkId := none, reason := some "no-binding", binding := none } :=
  ⟨slack_binding_scoring_amended.1 wildcardBinding channelAllEvent,
    (slack_binding_scoring_amended.2 [sampleTalk] sampleEvent).2.1 sampleTalk (by decide),
    (slack_binding_scoring_amended.2 [sampleTalk, sampleTalk2] sampleEvent).2.2 (by decide),
    (slack_binding_scoring_amended.2 [] sampleEvent).1 (by decide)⟩

/-- Witness for C9 at a concrete history with a pin among the deleted ids. -/
theorem deleteMessages_no_dangling_pins_witness :
    "m1" ∈ sampleTalk.pinnedMessageIds ∧
    "m1" ∈ requestedIdSet ["m1"] ∧
    "m1" ∉ (deleteMessagesModel sampleHistory sampleTalk.pinnedMessageIds ["m1"]).pins ∧
    (deleteMessagesModel sampleHistory sampleTalk.pinnedMessageIds ["m1"]).deleted =
      sampleHistory.length -
        (deleteMessagesModel sampleHistory sampleTalk.pinnedMessageIds ["m1"]).remainingMessages.length := by
  refine ⟨by decide, by decide, ?_, ?_⟩
  · exact (deleteMessages_no_dangling_pins sampleHistory sampleTalk.pinnedMessageIds ["m1"]).2.1
      "m1" (by decide) (by decide)
  · exact (deleteMessages_no_dangling_pins sampleHistory sampleTalk.pinnedMessageIds ["m1"]).2.2.1

end ClawTalk
